import Mathlib

/-!
# Brands CRUD backend: the auth gate, registration and login, and the brands routes

A shallow embedding of the Express backend (`middleware/auth.js`, `routes/auth.js`,
`routes/brands.js`, `database/init.js`) and of the submit handler of the brand dialog
(`components/Dashboard.tsx`).

* The SQLite file is a value of type `Db`; every request handler is a function from the
  request and the database to a response and the next database.
* Third-party libraries (`jsonwebtoken`, `bcryptjs`, the `validator` predicates `isEmail`
  and `isURL`) are not part of the repository: they are fields of `Env`, and what a proof
  needs from them is an explicit law (`JwtLaws`, `EmailLaws`, `UrlLaws`).
* The clock is a number of seconds (the resolution of JWT `iat`/`exp` and of SQLite's
  `CURRENT_TIMESTAMP`); a random bcrypt salt is an explicit argument.
* Request bodies come in two layers. `RegisterBody`, `LoginBody` and `BrandBody` are the
  bodies whose fields are strings (`none` is an absent, `undefined`, field), with the full
  response of each handler. `RegisterJson`, `LoginJson` and `BrandJson` add the values JSON
  also allows where they change what the handlers do: an array of strings, which
  express-validator validates element by element and better-sqlite3 spreads over the `?`
  parameters, and a number as password.
* A path parameter `:id` is read twice: as the integer SQLite compares with the `id` column,
  and by `parseInt`. The two readings are separate arguments.
* JavaScript numbers are doubles. The numbers of the handlers are integers or infinite; they
  are written as `Int`, rounded to the nearest double after every operation (`toDouble`),
  with `2^1024` standing for `Infinity`.
* SQLite's refusal of a `LIMIT` or `OFFSET` outside its 64-bit integers, and better-sqlite3's
  refusal of a wrong number of parameters, are the storage errors that are modelled.
-/

namespace Crud

/-! ## Values -/

/-- A scalar of a JSON response object. -/
inductive JVal where
  | num (n : Nat)
  | str (s : String)
  deriving DecidableEq, Repr

/-- A flat JSON object: its keys with their values, in order. -/
abbrev JObj := List (String × JVal)

/-- The object literal `{ id, username, email }` built in `generateToken`, in `register`
(`newUser`) and in `login` (`user`). -/
def userObject (id : Nat) (username email : String) : JObj :=
  [("id", .num id), ("username", .str username), ("email", .str email)]

/-- The payload literal passed to `jwt.sign` by `generateToken`. -/
structure TokenPayload where
  id : Nat
  username : String
  email : String
  deriving DecidableEq, Repr

/-- What `jwt.verify` hands to its callback on success: the payload with the timestamps
`jwt.sign` added. -/
structure Claims where
  id : Nat
  username : String
  email : String
  iat : Nat
  exp : Nat
  deriving DecidableEq, Repr

/-- The errors of `jwt.verify` (`JsonWebTokenError`, `TokenExpiredError`). -/
inductive VerifyError where
  | malformed
  | invalidSignature
  | expired
  deriving DecidableEq, Repr

/-! ## The environment: process configuration and third-party libraries -/

/-- Everything the backend uses that is not repository code. -/
structure Env where
  /-- The variable `process.env.JWT_SECRET`. -/
  envJwtSecret : Option String
  /-- The call `jwt.sign(payload, secret, { expiresIn })` at clock `now`; `expiresIn` and
  `now` in seconds. -/
  jwtSign : TokenPayload → String → Nat → Nat → String
  /-- The call `jwt.verify(token, secret, cb)` at clock `now`: the error or the decoded
  payload given to `cb`. -/
  jwtVerify : String → String → Nat → Except VerifyError Claims
  /-- The call `bcrypt.hash(password, 10)` (and `hashSync`) with the salt it drew. -/
  bcryptHash : String → String → String
  /-- The call `bcrypt.compare(password, hash)`. -/
  bcryptCompare : String → String → Bool
  /-- The `validator` predicate behind `.isEmail()`. -/
  isEmail : String → Bool
  /-- The `validator` predicate behind `.isURL()`. -/
  isURL : String → Bool

/-- The constant `JWT_SECRET = process.env.JWT_SECRET || 'your-secret-key'`. -/
def JWT_SECRET (E : Env) : String :=
  match E.envJwtSecret with
  | some s => if s = "" then "your-secret-key" else s
  | none => "your-secret-key"

/-- The option `expiresIn: '24h'` in seconds. -/
def expiresIn24h : Nat := 24 * 60 * 60

/-! ## Responses -/

/-- One entry of `errors.array()`: the field and the message of a failed validator. -/
structure FieldError where
  path : String
  msg : String
  deriving DecidableEq, Repr

/-- A brand as the API returns it. -/
structure BrandRow where
  id : Nat
  name : String
  description : Option String
  logo_url : Option String
  website : Option String
  founded_year : Option Int
  country : Option String
  industry : Option String
  created_at : Nat
  updated_at : Nat
  deriving DecidableEq, Repr

/-- The object `updatedBrand` that `PUT /:id` sends: a brand without `created_at`. Its `id`
is the number `parseInt(req.params.id)`; `none` is `NaN` (sent as `null`). -/
structure UpdatedBrand where
  id : Option Int
  name : String
  description : Option String
  logo_url : Option String
  website : Option String
  founded_year : Option Int
  country : Option String
  industry : Option String
  updated_at : Nat
  deriving DecidableEq, Repr

/-- The JSON bodies the handlers send. -/
inductive Body where
  /-- The body `{ error }`. -/
  | error (msg : String)
  /-- The body `{ error: 'Ошибка валидации', details }`. -/
  | validation (details : List FieldError)
  /-- The body `{ message, token, user }`. -/
  | auth (message token : String) (user : JObj)
  /-- The body `{ brands, total, page, totalPages, hasNext, hasPrev }`. -/
  | brandList (brands : List BrandRow) (total : Nat) (page totalPages : Int)
      (hasNext hasPrev : Bool)
  /-- A brand object. -/
  | brand (b : BrandRow)
  /-- The body `{ message }`. -/
  | message (msg : String)
  /-- The object `updatedBrand`. -/
  | updated (b : UpdatedBrand)
  deriving DecidableEq, Repr

/-- An HTTP response: status and JSON body. -/
structure Response where
  status : Nat
  body : Body
  deriving DecidableEq, Repr

/-! ## The database -/

/-- A row of table `users`. -/
structure UserRow where
  id : Nat
  username : String
  email : String
  password : String
  created_at : Nat
  updated_at : Nat
  deriving DecidableEq, Repr

/-- The SQLite file: both tables in rowid order, each with its `AUTOINCREMENT` counter
(the largest rowid ever handed out, kept in `sqlite_sequence`). -/
structure Db where
  users : List UserRow
  usersSeq : Nat
  brands : List BrandRow
  brandsSeq : Nat
  deriving DecidableEq, Repr

/-- A database file with both tables created and empty. -/
def emptyDb : Db := ⟨[], 0, [], 0⟩

/-! ## `middleware/auth.js` -/

/-- JavaScript `s.split(' ')`. -/
def splitSpace : List Char → List (List Char)
  | [] => [[]]
  | c :: cs =>
    if c = ' ' then [] :: splitSpace cs
    else match splitSpace cs with
      | [] => [[c]]
      | w :: ws => (c :: w) :: ws

/-- The expression `authHeader && authHeader.split(' ')[1]`; `none` stands for a falsy
result that is not a string (`undefined`). -/
def bearerToken (authHeader : Option String) : Option String :=
  match authHeader with
  | none => none
  | some h => if h = "" then some "" else ((splitSpace h.data)[1]?).map String.mk

/-- What the middleware does with a request: answer it, or call `next()` with `req.user`
set. -/
inductive Gate where
  | respond (r : Response)
  | next (user : Claims)
  deriving DecidableEq, Repr

/-- The middleware `authenticateToken`, on the `authorization` header of the request. -/
def authenticateToken (E : Env) (now : Nat) (authHeader : Option String) : Gate :=
  match bearerToken authHeader with
  | none => .respond ⟨401, .error "Токен доступа не предоставлен"⟩
  | some token =>
    if token = "" then .respond ⟨401, .error "Токен доступа не предоставлен"⟩
    else match E.jwtVerify token (JWT_SECRET E) now with
      | .error _ => .respond ⟨403, .error "Недействительный токен"⟩
      | .ok user => .next user

/-- A protected endpoint `router.METHOD(path, authenticateToken, handler)`: the handler runs
only when the middleware calls `next()`. -/
def protectedRoute (E : Env) (now : Nat) (handler : Claims → Db → Response × Db)
    (authHeader : Option String) (db : Db) : Response × Db :=
  match authenticateToken E now authHeader with
  | .respond r => (r, db)
  | .next user => handler user db

/-- The function `generateToken(user)` called at clock `now`. -/
def generateToken (E : Env) (now : Nat) (id : Nat) (username email : String) : String :=
  E.jwtSign ⟨id, username, email⟩ (JWT_SECRET E) expiresIn24h now

/-! ## `database/init.js` -/

/-- The rowid SQLite gives a new row of an `AUTOINCREMENT` table: one more than the largest
rowid the table ever held. -/
def nextRowid (seq : Nat) (ids : List Nat) : Nat :=
  max seq (ids.foldr max 0) + 1

/-- The statement `INSERT INTO users (username, email, password) VALUES (?, ?, ?)` at clock
`now`: it throws when a `UNIQUE` constraint fails, else returns `lastInsertRowid`. -/
def insertUser (db : Db) (username email password : String) (now : Nat) :
    Except Unit (Nat × Db) :=
  if db.users.any (fun r => decide (r.username = username) || decide (r.email = email)) then
    .error ()
  else
    let id := nextRowid db.usersSeq (db.users.map (·.id))
    .ok (id, { db with users := db.users ++ [⟨id, username, email, password, now, now⟩],
                       usersSeq := id })

/-- The statement `INSERT INTO brands (name, description, logo_url, website, founded_year,
country, industry) VALUES (?, ?, ?, ?, ?, ?, ?)` at clock `now`; returns `lastInsertRowid`. -/
def insertBrand (db : Db) (name : String) (description logo_url website : Option String)
    (founded_year : Option Int) (country industry : Option String) (now : Nat) : Nat × Db :=
  let id := nextRowid db.brandsSeq (db.brands.map (·.id))
  (id, { db with
    brands := db.brands ++
      [⟨id, name, description, logo_url, website, founded_year, country, industry, now, now⟩],
    brandsSeq := id })

/-- One element of the array `testBrands`. -/
structure SeedBrand where
  name : String
  description : String
  logo_url : String
  website : String
  founded_year : Int
  country : String
  industry : String

/-- The array `testBrands`. -/
def testBrands : List SeedBrand :=
  [ ⟨"Apple",
     "Американская корпорация, производитель персональных и планшетных компьютеров",
     "https://upload.wikimedia.org/wikipedia/commons/f/fa/Apple_logo_black.svg",
     "https://www.apple.com", 1976, "США", "Технологии"⟩,
    ⟨"Nike",
     "Американская компания, производитель спортивной одежды и обуви",
     "https://upload.wikimedia.org/wikipedia/commons/a/a6/Nike_Logo.svg",
     "https://www.nike.com", 1964, "США", "Спорт"⟩,
    ⟨"Coca-Cola",
     "Американская компания, производитель безалкогольных напитков",
     "https://upload.wikimedia.org/wikipedia/commons/c/ce/Coca-Cola_logo.svg",
     "https://www.coca-cola.com", 1886, "США", "Напитки"⟩ ]

/-- The function `initializeDatabase()` run at clock `now`, `salt` being the salt drawn by
`bcrypt.hashSync('admin123', 10)`: the tables exist afterwards, and an empty table is
seeded. -/
def initializeDatabase (E : Env) (salt : String) (now : Nat) (db : Db) : Db :=
  let db1 :=
    if db.users.length = 0 then
      match insertUser db "admin" "admin@example.com" (E.bcryptHash "admin123" salt) now with
      | .ok (_, d) => d
      | .error _ => db
    else db
  if db1.brands.length = 0 then
    testBrands.foldl (fun d b =>
      (insertBrand d b.name (some b.description) (some b.logo_url) (some b.website)
        (some b.founded_year) (some b.country) (some b.industry) now).2) db1
  else db1

/-! ## `routes/auth.js` -/

/-- The string express-validator validates for a field: `''` for an absent field. -/
def fieldString (v : Option String) : String := v.getD ""

/-- The length `validator.isLength` measures: the code points of the string (a surrogate
pair counts once) without the variation selectors U+FE0E and U+FE0F. -/
def validatorLength (s : String) : Nat :=
  s.length -
    (s.data.filter (fun c => decide (c.toNat = 0xFE0E) || decide (c.toNat = 0xFE0F))).length

/-- The validator `.isLength({ min, max })`. -/
def isLength (s : String) (min : Nat) (max : Option Nat) : Bool :=
  decide (min ≤ validatorLength s) &&
    (match max with | none => true | some m => decide (validatorLength s ≤ m))

/-- One character of the class `[a-zA-Z0-9_]`. -/
def isWordChar (c : Char) : Bool :=
  c.isAlphanum || decide (c = '_')

/-- The validator `.matches(/^[a-zA-Z0-9_]+$/)`. -/
def matchesUsername (s : String) : Bool :=
  !s.data.isEmpty && s.data.all isWordChar

/-- The validator `.notEmpty()`. -/
def notEmpty (s : String) : Bool := decide (s ≠ "")

/-- A body of `POST /register` whose fields are strings (`none`: the field is absent). -/
structure RegisterBody where
  username : Option String
  email : Option String
  password : Option String
  deriving DecidableEq, Repr

/-- A body of `POST /login` whose fields are strings (`none`: the field is absent). -/
structure LoginBody where
  username : Option String
  password : Option String
  deriving DecidableEq, Repr

/-- The validation chains of `POST /register`: the list `errors.array()`. -/
def registerValidators (E : Env) (body : RegisterBody) : List FieldError :=
  (if isLength (fieldString body.username) 3 (some 30) then []
   else [⟨"username", "Имя пользователя должно содержать от 3 до 30 символов"⟩]) ++
  (if matchesUsername (fieldString body.username) then []
   else [⟨"username",
          "Имя пользователя может содержать только буквы, цифры и подчеркивания"⟩]) ++
  (if E.isEmail (fieldString body.email) then []
   else [⟨"email", "Введите корректный email"⟩]) ++
  (if isLength (fieldString body.password) 6 none then []
   else [⟨"password", "Пароль должен содержать минимум 6 символов"⟩])

/-- The validation chains of `POST /login`. -/
def loginValidators (body : LoginBody) : List FieldError :=
  (if notEmpty (fieldString body.username) then []
   else [⟨"username", "Имя пользователя или email обязательно"⟩]) ++
  (if notEmpty (fieldString body.password) then []
   else [⟨"password", "Пароль обязателен"⟩])

/-- The handler of `POST /register` at clock `now`, with the salt `bcrypt.hash` draws, on a
body of strings. -/
def register (E : Env) (salt : String) (now : Nat) (body : RegisterBody) (db : Db) :
    Response × Db :=
  let errors := registerValidators E body
  if !errors.isEmpty then (⟨400, .validation errors⟩, db)
  else
    match body.username, body.email, body.password with
    | some username, some email, some password =>
      match db.users.find? (fun r => decide (r.username = username) || decide (r.email = email)) with
      | some _ => (⟨409, .error "Пользователь с таким именем или email уже существует"⟩, db)
      | none =>
        let hashedPassword := E.bcryptHash password salt
        match insertUser db username email hashedPassword now with
        | .error _ => (⟨500, .error "Внутренняя ошибка сервера"⟩, db)
        | .ok (lastInsertRowid, db1) =>
          let token := generateToken E now lastInsertRowid username email
          (⟨201, .auth "Пользователь успешно зарегистрирован" token
                  (userObject lastInsertRowid username email)⟩, db1)
    | _, _, _ => (⟨500, .error "Внутренняя ошибка сервера"⟩, db)

/-- The row `.get(a, b)` returns for `SELECT * FROM users WHERE username = ? OR email = ?`.
Each column has a `UNIQUE` index and SQLite answers the two sides of the `OR` through them,
the username side first: the row with that username if there is one, else the row with that
email. -/
def selectUser (a b : String) (users : List UserRow) : Option UserRow :=
  match users.find? (fun r => decide (r.username = a)) with
  | some r => some r
  | none => users.find? (fun r => decide (r.email = b))

/-- The handler of `POST /login` at clock `now`, on a body of strings. -/
def login (E : Env) (now : Nat) (body : LoginBody) (db : Db) : Response × Db :=
  let errors := loginValidators body
  if !errors.isEmpty then (⟨400, .validation errors⟩, db)
  else
    match body.username, body.password with
    | some username, some password =>
      match selectUser username username db.users with
      | none => (⟨401, .error "Неверные учетные данные"⟩, db)
      | some user =>
        if !E.bcryptCompare password user.password then
          (⟨401, .error "Неверные учетные данные"⟩, db)
        else
          let token := generateToken E now user.id user.username user.email
          (⟨200, .auth "Успешный вход" token (userObject user.id user.username user.email)⟩, db)
    | _, _ => (⟨500, .error "Внутренняя ошибка сервера"⟩, db)

/-! ## `routes/brands.js` -/

/-- The value of `founded_year` in a request body: a JSON integer, or any other value, kept
as the string express-validator tests (one that is not an integer numeral). -/
inductive YearInput where
  | int (n : Int)
  | notInt (raw : String)
  deriving DecidableEq, Repr

/-- A body of `POST /` and `PUT /:id` whose fields are strings, the year apart (`none`: the
field is absent). -/
structure BrandBody where
  name : Option String
  description : Option String
  logo_url : Option String
  website : Option String
  founded_year : Option YearInput
  country : Option String
  industry : Option String
  deriving DecidableEq, Repr

/-- The validator `.isInt({ min: 1800, max })` on the value of `founded_year`. -/
def isIntInRange (v : YearInput) (min max : Int) : Bool :=
  match v with
  | .int n => decide (min ≤ n) && decide (n ≤ max)
  | .notInt _ => false

/-- An `.optional()` chain: an absent field is not validated. -/
def optionalCheck {α : Type} (v : Option α) (ok : α → Bool) (path msg : String) :
    List FieldError :=
  match v with
  | none => []
  | some x => if ok x then [] else [⟨path, msg⟩]

/-- The validation chains of `POST /` and of `PUT /:id` (the two arrays are the same);
`maxYear` is the value `new Date().getFullYear()` had when the route was set up. -/
def brandValidators (E : Env) (maxYear : Int) (body : BrandBody) : List FieldError :=
  (if notEmpty (fieldString body.name) then []
   else [⟨"name", "Название бренда обязательно"⟩]) ++
  (if isLength (fieldString body.name) 0 (some 100) then []
   else [⟨"name", "Название бренда не должно превышать 100 символов"⟩]) ++
  optionalCheck body.description (fun s => isLength s 0 (some 500)) "description"
    "Описание не должно превышать 500 символов" ++
  optionalCheck body.logo_url E.isURL "logo_url" "URL логотипа должен быть валидным" ++
  optionalCheck body.website E.isURL "website" "URL сайта должен быть валидным" ++
  optionalCheck body.founded_year (fun v => isIntInRange v 1800 maxYear) "founded_year"
    "Год основания должен быть между 1800 и текущим годом" ++
  optionalCheck body.country (fun s => isLength s 0 (some 50)) "country"
    "Название страны не должно превышать 50 символов" ++
  optionalCheck body.industry (fun s => isLength s 0 (some 50)) "industry"
    "Название отрасли не должно превышать 50 символов"

/-- The integer bound to the `founded_year` column: `NULL` for an absent field. -/
def yearValue (v : Option YearInput) : Option Int :=
  match v with
  | some (.int n) => some n
  | _ => none

/-- The handler of `POST /` (behind `authenticateToken`) at clock `now`, on a body of
strings. -/
def createBrand (E : Env) (maxYear : Int) (now : Nat) (body : BrandBody) (db : Db) :
    Response × Db :=
  let errors := brandValidators E maxYear body
  if !errors.isEmpty then (⟨400, .validation errors⟩, db)
  else
    match body.name with
    | some name =>
      let r := insertBrand db name body.description body.logo_url body.website
        (yearValue body.founded_year) body.country body.industry now
      (⟨201, .brand ⟨r.1, name, body.description, body.logo_url, body.website,
          yearValue body.founded_year, body.country, body.industry, now, now⟩⟩, r.2)
    | none => (⟨500, .error "Ошибка создания бренда"⟩, db)

/-- The characters `parseInt` skips at the start of its input (white space and line
terminators). -/
def isJsWhiteSpace (c : Char) : Bool :=
  let n := c.toNat
  (9 ≤ n && n ≤ 13) || n = 0x20 || n = 0xA0 || n = 0x1680 || (0x2000 ≤ n && n ≤ 0x200A) ||
  n = 0x2028 || n = 0x2029 || n = 0x202F || n = 0x205F || n = 0x3000 || n = 0xFEFF

/-- The value of a digit of the given radix (10 or 16). -/
def digitValue (radix : Nat) (c : Char) : Option Nat :=
  let n := c.toNat
  if 48 ≤ n ∧ n ≤ 57 then some (n - 48)
  else if radix = 16 ∧ 97 ≤ n ∧ n ≤ 102 then some (n - 87)
  else if radix = 16 ∧ 65 ≤ n ∧ n ≤ 70 then some (n - 55)
  else none

/-- The longest run of digits at the start of the input. -/
def leadingDigits (radix : Nat) : List Char → List Nat
  | [] => []
  | c :: cs =>
    match digitValue radix c with
    | some d => d :: leadingDigits radix cs
    | none => []

/-- The number of bits a natural number has beyond the 53 bits of the significand of a
double; the first argument bounds the recursion. -/
def excessBits : Nat → Nat → Nat
  | 0, _ => 0
  | fuel + 1, n => if n < 2 ^ 53 then 0 else excessBits fuel (n / 2) + 1

/-- The double nearest to a natural number, a tie going to the even significand: the number
is cut to its 53 leading bits `q`, rounded by the bits `r` cut off. A result of `2^1024` or
more is `2^1024`, which stands for `Infinity`. -/
def roundNat (n : Nat) : Nat :=
  let e := excessBits n n
  let q := n / 2 ^ e
  let r := n % 2 ^ e
  let up := decide (2 ^ e < 2 * r) || (decide (2 * r = 2 ^ e) && decide (q % 2 = 1))
  let m := if up then q + 1 else q
  if decide (971 < e) || (decide (e = 971) && decide (m = 2 ^ 53)) then 2 ^ 1024
  else m * 2 ^ e

/-- The JavaScript number for an integer result: the nearest double (`±2^1024` is
`±Infinity`). -/
def toDouble (x : Int) : Int :=
  if x < 0 then -((roundNat x.natAbs : Nat) : Int) else ((roundNat x.toNat : Nat) : Int)

/-- JavaScript `parseInt(v)` on a query parameter, a path parameter or a form field; `none`
is `NaN`. The digits are read exactly and the result is the double nearest to them. -/
def parseInt (v : Option String) : Option Int :=
  let s0 := (match v with | some s => s.data | none => "undefined".data).dropWhile isJsWhiteSpace
  let neg := match s0 with | '-' :: _ => true | _ => false
  let s1 := match s0 with | '-' :: r => r | '+' :: r => r | _ => s0
  let radix : Nat := match s1 with | '0' :: 'x' :: _ => 16 | '0' :: 'X' :: _ => 16 | _ => 10
  let s2 := match s1 with | '0' :: 'x' :: r => r | '0' :: 'X' :: r => r | _ => s1
  let ds := leadingDigits radix s2
  if ds.isEmpty then none
  else
    let m : Int := (ds.foldl (fun a d => a * radix + d) 0 : Nat)
    some (toDouble (if neg then -m else m))

/-- The expression `x || d` for a number `x`: `NaN` and `0` are falsy. -/
def jsOr (x : Option Int) (d : Int) : Int :=
  match x with
  | some n => if n = 0 then d else n
  | none => d

/-- Whether `f` holds of the text or of one of its tails. -/
def anyTail (f : List Char → Bool) : List Char → Bool
  | [] => f []
  | c :: cs => f (c :: cs) || anyTail f cs

/-- SQLite's `patternCompare` for `LIKE`: `%` matches any run of characters, `_` any one
character, any other character itself, ASCII letters without regard to case. -/
def patternCompare : List Char → List Char → Bool
  | [], t => t.isEmpty
  | p :: ps, t =>
    if p = '%' then anyTail (patternCompare ps) t
    else match t with
      | [] => false
      | c :: cs =>
        if p = '_' then patternCompare ps cs
        else decide (p.toLower = c.toLower) && patternCompare ps cs

/-- What `LIKE` reads of an operand: SQLite takes it as a C string, so the characters before
the first U+0000. -/
def cString (t : List Char) : List Char :=
  t.takeWhile (fun c => !decide (c = Char.ofNat 0))

/-- SQLite `text LIKE pattern`: `patternCompare` on both operands read as C strings. -/
def likeMatch (pattern text : List Char) : Bool :=
  patternCompare (cString pattern) (cString text)

/-- The parameter `%${search}%`. -/
def likePattern (search : String) : List Char :=
  '%' :: (search.data ++ ['%'])

/-- The clause `WHERE name LIKE ? OR description LIKE ?` with both parameters
`%${search}%`; a `NULL` description matches nothing. -/
def whereLike (search : String) (r : BrandRow) : Bool :=
  likeMatch (likePattern search) r.name.data ||
  (match r.description with
   | some d => likeMatch (likePattern search) d.data
   | none => false)

/-- The clause `ORDER BY created_at DESC` over rows in rowid order: rows with the same
`created_at` stay in rowid order, as SQLite's sorter leaves them. -/
def orderByCreatedAtDesc (rows : List BrandRow) : List BrandRow :=
  rows.insertionSort (fun a b => b.created_at ≤ a.created_at)

/-- The clause `LIMIT ? OFFSET ?`: a negative limit is no limit, a negative offset is 0. -/
def limitOffset (limit offset : Int) (rows : List BrandRow) : List BrandRow :=
  let rest := rows.drop offset.toNat
  if limit < 0 then rest else rest.take limit.toNat

/-- The value `Math.ceil(total / limit)` for a non-zero `limit`. -/
def ceilDiv (total : Nat) (limit : Int) : Int :=
  -(Int.fdiv (-(total : Int)) limit)

/-- The query string of `GET /`. -/
structure ListQuery where
  page : Option String
  limit : Option String
  search : Option String
  deriving DecidableEq, Repr

/-- The statement built in `countQuery`, run with its parameters: the value
`countResult.total`. -/
def countQuery (search : String) (db : Db) : Nat :=
  if search ≠ "" then (db.brands.filter (whereLike search)).length
  else db.brands.length

/-- The statement built in `query`, run with `params`. -/
def selectQuery (search : String) (limit offset : Int) (db : Db) : List BrandRow :=
  if search ≠ "" then
    limitOffset limit offset (orderByCreatedAtDesc (db.brands.filter (whereLike search)))
  else limitOffset limit offset (orderByCreatedAtDesc db.brands)

/-- Whether SQLite takes a bound number as the integer of `LIMIT` or `OFFSET`: it has to
lie strictly between -2^63 and 2^63, or the statement fails with `datatype mismatch`. -/
def isSqliteInteger (x : Int) : Bool :=
  decide (-(2 : Int) ^ 63 < x) && decide (x < (2 : Int) ^ 63)

/-- The value `(page - 1) * limit`: each of the two operations gives the nearest double. -/
def pageOffset (page limit : Int) : Int :=
  toDouble (toDouble (page - 1) * limit)

/-- The handler of `GET /` (behind `authenticateToken`) from line 93 on, `page` and `limit`
being the numbers computed on lines 91 and 92 (doubles; `limit` is not zero). When SQLite
refuses `limit` or `offset` the statement `query` throws and the `catch` block answers 500.
The quotient `total / limit` is taken exactly: for a table of fewer than 2^53 rows its
rounding to a double does not change `Math.ceil` of it. -/
def listPage (page limit : Int) (search : String) (db : Db) : Response × Db :=
  let offset := pageOffset page limit
  let total := countQuery search db
  let totalPages := ceilDiv total limit
  if isSqliteInteger limit && isSqliteInteger offset then
    let brands := selectQuery search limit offset db
    (⟨200, .brandList brands total page totalPages (decide (page < totalPages))
        (decide (page > 1))⟩, db)
  else (⟨500, .error "Ошибка получения данных"⟩, db)

/-- The handler of `GET /` (behind `authenticateToken`). -/
def getBrands (q : ListQuery) (db : Db) : Response × Db :=
  listPage (jsOr (parseInt q.page) 1) (jsOr (parseInt q.limit) 10) (q.search.getD "") db

/-- The handler of `GET /:id` (behind `authenticateToken`); `id` is the integer that the
path segment denotes for SQLite (a segment that denotes none matches no row). -/
def getBrand (id : Nat) (db : Db) : Response × Db :=
  match db.brands.find? (fun r => decide (r.id = id)) with
  | none => (⟨404, .error "Бренд не найден"⟩, db)
  | some brand => (⟨200, .brand brand⟩, db)

/-- The statement `UPDATE brands SET name = ?, description = ?, logo_url = ?, website = ?,
founded_year = ?, country = ?, industry = ?, updated_at = CURRENT_TIMESTAMP WHERE id = ?`
at clock `now`. -/
def updateRows (id : Nat) (name : String) (description logo_url website : Option String)
    (founded_year : Option Int) (country industry : Option String) (now : Nat)
    (rows : List BrandRow) : List BrandRow :=
  rows.map (fun r =>
    if r.id = id then
      { r with name := name, description := description, logo_url := logo_url,
               website := website, founded_year := founded_year, country := country,
               industry := industry, updated_at := now }
    else r)

/-- The handler of `PUT /:id` (behind `authenticateToken`) at clock `now`, on a body of
strings. The path segment is read twice: `id` is the integer it denotes for SQLite in
`WHERE id = ?`, and `idNumber` is `parseInt(req.params.id)`, which the response carries (for
the segment `0.2e1` SQLite matches row 2 and `parseInt` reads 0; for a decimal numeral the
two agree). -/
def updateBrand (E : Env) (maxYear : Int) (now : Nat) (id : Nat) (idNumber : Option Int)
    (body : BrandBody) (db : Db) : Response × Db :=
  let errors := brandValidators E maxYear body
  if !errors.isEmpty then (⟨400, .validation errors⟩, db)
  else
    match db.brands.find? (fun r => decide (r.id = id)) with
    | none => (⟨404, .error "Бренд не найден"⟩, db)
    | some _ =>
      match body.name with
      | some name =>
        let rows := updateRows id name body.description body.logo_url body.website
          (yearValue body.founded_year) body.country body.industry now db.brands
        (⟨200, .updated ⟨idNumber, name, body.description, body.logo_url, body.website,
            yearValue body.founded_year, body.country, body.industry, now⟩⟩,
         { db with brands := rows })
      | none => (⟨500, .error "Ошибка обновления бренда"⟩, db)

/-- The handler of `DELETE /:id` (behind `authenticateToken`). -/
def deleteBrand (id : Nat) (db : Db) : Response × Db :=
  match db.brands.find? (fun r => decide (r.id = id)) with
  | none => (⟨404, .error "Бренд не найден"⟩, db)
  | some _ =>
    (⟨200, .message "Бренд успешно удален"⟩,
     { db with brands := db.brands.filter (fun r => !decide (r.id = id)) })

/-- The `total` of a list response. -/
def totalOf (r : Response) : Option Nat :=
  match r.body with
  | .brandList _ total _ _ _ _ => some total
  | _ => none

/-- A run of `POST /` requests, each with its clock time: the responses in order and the
database at the end. -/
def runCreates (E : Env) (maxYear : Int) : List (Nat × BrandBody) → Db → List Response × Db
  | [], db => ([], db)
  | (now, body) :: rest, db =>
    let r := createBrand E maxYear now body db
    let rs := runCreates E maxYear rest r.2
    (r.1 :: rs.1, rs.2)

/-- The brand objects in a list of responses. -/
def createdBrands : List Response → List BrandRow
  | [] => []
  | r :: rs =>
    match r.body with
    | .brand b => b :: createdBrands rs
    | _ => createdBrands rs

/-- The `brands` array of a list response. -/
def brandsOf (r : Response) : List BrandRow :=
  match r.body with
  | .brandList brands _ _ _ _ _ => brands
  | _ => []

/-- A body with a name and nothing else. -/
def nameOnly (name : String) : BrandBody :=
  ⟨some name, none, none, none, none, none, none⟩

/-! ## `components/Dashboard.tsx` -/

/-- The state `formData` of `BrandDialog`: seven strings, the text of the seven fields. -/
structure BrandForm where
  name : String
  description : String
  logo_url : String
  website : String
  founded_year : String
  country : String
  industry : String
  deriving DecidableEq, Repr

/-- The object `handleSubmit` passes to `onSave`, as `axios` sends it in the JSON body:
`{ ...formData, founded_year: formData.founded_year ? parseInt(formData.founded_year) :
undefined }`. An `undefined` key is left out of the JSON, and `NaN` is sent as `null`, which
express-validator tests as the empty string. -/
def handleSubmit (f : BrandForm) : BrandBody :=
  { name := some f.name
    description := some f.description
    logo_url := some f.logo_url
    website := some f.website
    founded_year :=
      if f.founded_year = "" then none
      else match parseInt (some f.founded_year) with
        | some n => some (.int n)
        | none => some (.notInt "")
    country := some f.country
    industry := some f.industry }

/-- A body with the keys `logo_url` and `website` left out. -/
def withoutUrls (b : BrandBody) : BrandBody :=
  { b with logo_url := none, website := none }

/-! ## Bodies with arrays and numbers

A JSON body may hold an array or a number where the handlers expect a string. The chains
of express-validator run every validator on each element of an array (so on nothing for
`[]`), and better-sqlite3 spreads an array argument of `.get` or `.run` over as many `?`
parameters as it has elements, throwing when the number of values is not the number of
parameters. `bcrypt.compare` throws for a password that is not a string. -/

/-- A body field that is a string or an array of strings. -/
inductive TextField where
  | one (s : String)
  | many (elements : List String)
  deriving DecidableEq, Repr

/-- The strings a field stands for, to express-validator (the values it validates one by
one) and to better-sqlite3 (the parameters it binds): the string itself, or the elements of
the array. -/
def TextField.items : TextField → List String
  | .one s => [s]
  | .many elements => elements

/-- The password of a login body: a string or a JSON number. -/
inductive PasswordField where
  | text (s : String)
  | number (n : Int)
  deriving DecidableEq, Repr

/-- A body of `POST /register` whose username and email are strings or arrays of strings. -/
structure RegisterJson where
  username : TextField
  email : TextField
  password : String
  deriving DecidableEq, Repr

/-- A body of `POST /login` whose username is a string or an array of strings and whose
password is a string or a number. -/
structure LoginJson where
  username : TextField
  password : PasswordField
  deriving DecidableEq, Repr

/-- A body of `POST /` whose name and description are strings or arrays of strings. -/
structure BrandJson where
  name : TextField
  description : Option TextField
  logo_url : Option String
  website : Option String
  founded_year : Option YearInput
  country : Option String
  industry : Option String
  deriving DecidableEq, Repr

/-- Whether the validation chains of `POST /register` report no error. -/
def registerJsonValid (E : Env) (body : RegisterJson) : Bool :=
  body.username.items.all (fun s => isLength s 3 (some 30) && matchesUsername s) &&
  body.email.items.all E.isEmail &&
  isLength body.password 6 none

/-- The handler of `POST /register` at clock `now` on such a body: the status of the response
and the database afterwards. Both statements take `username, email` as arguments, so they
run only when the two fields together hold two strings. -/
def registerJson (E : Env) (salt : String) (now : Nat) (body : RegisterJson) (db : Db) :
    Nat × Db :=
  if !registerJsonValid E body then (400, db)
  else
    match body.username.items ++ body.email.items with
    | [username, email] =>
      match db.users.find? (fun r => decide (r.username = username) || decide (r.email = email)) with
      | some _ => (409, db)
      | none =>
        match insertUser db username email (E.bcryptHash body.password salt) now with
        | .error _ => (500, db)
        | .ok (_, db1) => (201, db1)
    | _ => (500, db)

/-- The handler of `POST /login` at clock `now` on such a body. A number passes `notEmpty`
(it is validated as its decimal text), and `bcrypt.compare` throws on it, which the `catch`
block answers with 500; the statement takes `username, username` as arguments. -/
def loginJson (E : Env) (now : Nat) (body : LoginJson) (db : Db) : Response × Db :=
  let errors :=
    body.username.items.flatMap (fun s =>
      if notEmpty s then [] else [⟨"username", "Имя пользователя или email обязательно"⟩]) ++
    (match body.password with
     | .text s => if notEmpty s then [] else [⟨"password", "Пароль обязателен"⟩]
     | .number _ => [])
  if !errors.isEmpty then (⟨400, .validation errors⟩, db)
  else
    match body.username.items ++ body.username.items with
    | [a, b] =>
      match selectUser a b db.users with
      | none => (⟨401, .error "Неверные учетные данные"⟩, db)
      | some user =>
        match body.password with
        | .number _ => (⟨500, .error "Внутренняя ошибка сервера"⟩, db)
        | .text password =>
          if !E.bcryptCompare password user.password then
            (⟨401, .error "Неверные учетные данные"⟩, db)
          else
            let token := generateToken E now user.id user.username user.email
            (⟨200, .auth "Успешный вход" token (userObject user.id user.username user.email)⟩,
             db)
    | _ => (⟨500, .error "Внутренняя ошибка сервера"⟩, db)

/-- An `.optional()` chain as a test: an absent field passes. -/
def optionalOk {α : Type} (v : Option α) (ok : α → Bool) : Bool :=
  match v with
  | none => true
  | some x => ok x

/-- Whether the validation chains of `POST /` report no error. -/
def brandJsonValid (E : Env) (maxYear : Int) (body : BrandJson) : Bool :=
  body.name.items.all (fun s => notEmpty s && isLength s 0 (some 100)) &&
  optionalOk body.description (fun d => d.items.all (fun s => isLength s 0 (some 500))) &&
  optionalOk body.logo_url E.isURL &&
  optionalOk body.website E.isURL &&
  optionalOk body.founded_year (fun v => isIntInRange v 1800 maxYear) &&
  optionalOk body.country (fun s => isLength s 0 (some 50)) &&
  optionalOk body.industry (fun s => isLength s 0 (some 50))

/-- The parameters better-sqlite3 binds for the arguments `name, description` of the
`INSERT`: an absent description is one `NULL`. -/
def nameAndDescription (body : BrandJson) : List (Option String) :=
  body.name.items.map some ++
  (match body.description with
   | none => [none]
   | some d => d.items.map some)

/-- The handler of `POST /` at clock `now` on such a body: the status of the response and the
database afterwards. The `INSERT` runs only when `name` and `description` together give two
parameters; the first goes to the column `name`, which is `NOT NULL`. -/
def createBrandJson (E : Env) (maxYear : Int) (now : Nat) (body : BrandJson) (db : Db) :
    Nat × Db :=
  if !brandJsonValid E maxYear body then (400, db)
  else
    match nameAndDescription body with
    | [some name, description] =>
      (201, (insertBrand db name description body.logo_url body.website
        (yearValue body.founded_year) body.country body.industry now).2)
    | _ => (500, db)

/-! ## Laws of the libraries -/

/-- What the proofs use of `jsonwebtoken`: a token signed with a secret verifies under the
same secret to its payload, stamped with the issue time and the expiry `iat + expiresIn`,
as long as the clock is before the expiry, and is expired from then on; a token is a
non-empty string without a space (three base64url segments joined by dots). -/
structure JwtLaws (E : Env) : Prop where
  verify_sign : ∀ (p : TokenPayload) (secret : String) (ttl t t' : Nat),
    E.jwtVerify (E.jwtSign p secret ttl t) secret t' =
      if t' < t + ttl then .ok ⟨p.id, p.username, p.email, t, t + ttl⟩ else .error .expired
  sign_compact : ∀ (p : TokenPayload) (secret : String) (ttl t : Nat),
    E.jwtSign p secret ttl t ≠ "" ∧ ' ' ∉ (E.jwtSign p secret ttl t).data

/-- What the proofs use of `validator.isEmail`: an address it accepts contains `@`. -/
structure EmailLaws (E : Env) : Prop where
  at_sign : ∀ s : String, E.isEmail s = true → '@' ∈ s.data

/-- What the proofs use of `validator.isURL`: the empty string is not a URL. -/
structure UrlLaws (E : Env) : Prop where
  empty : E.isURL "" = false

/-! ## A reference environment

A small executable stand-in for the libraries, used to run the handlers on concrete
requests. Its token is the unary rendering of the payload, the two timestamps and the
secret; its password hash is the password followed by `$` and the salt. -/

/-- A number in unary: that many `1`, closed by `0`. -/
def encNat (n : Nat) : List Char := List.replicate n '1' ++ ['0']

/-- Reads a unary number and returns it with the rest of the input. -/
def decNat : List Char → Option (Nat × List Char)
  | [] => none
  | c :: cs =>
    if c = '0' then some (0, cs)
    else if c = '1' then
      match decNat cs with
      | some (n, r) => some (n + 1, r)
      | none => none
    else none

/-- The code points of a text, each in unary. -/
def encChars : List Char → List Char
  | [] => []
  | c :: cs => encNat c.toNat ++ encChars cs

/-- A text: its length, then its code points. -/
def encStr (s : List Char) : List Char := encNat s.length ++ encChars s

/-- Reads `k` code points. -/
def decChars : Nat → List Char → Option (List Char × List Char)
  | 0, cs => some ([], cs)
  | k + 1, cs =>
    match decNat cs with
    | none => none
    | some (n, r) =>
      match decChars k r with
      | none => none
      | some (s, r1) => some (Char.ofNat n :: s, r1)

/-- Reads a text written by `encStr`. -/
def decStr (cs : List Char) : Option (List Char × List Char) :=
  match decNat cs with
  | none => none
  | some (k, r) => decChars k r

/-- The reference `jwt.sign`. -/
def refSign (p : TokenPayload) (secret : String) (ttl now : Nat) : String :=
  String.mk (encNat p.id ++ (encNat now ++ (encNat (now + ttl) ++ (encStr p.username.data ++
    (encStr p.email.data ++ encStr secret.data)))))

/-- Reads a reference token: the claims and the secret it was signed with. -/
def refDecode (cs : List Char) : Option (Claims × List Char) :=
  match decNat cs with
  | none => none
  | some (id, r1) =>
  match decNat r1 with
  | none => none
  | some (iat, r2) =>
  match decNat r2 with
  | none => none
  | some (exp, r3) =>
  match decStr r3 with
  | none => none
  | some (u, r4) =>
  match decStr r4 with
  | none => none
  | some (e, r5) =>
  match decStr r5 with
  | none => none
  | some (sig, r6) =>
    if r6.isEmpty then some (⟨id, String.mk u, String.mk e, iat, exp⟩, sig) else none

/-- The reference `jwt.verify`. -/
def refVerify (token secret : String) (now : Nat) : Except VerifyError Claims :=
  match refDecode token.data with
  | none => .error .malformed
  | some (c, sig) =>
    if sig ≠ secret.data then .error .invalidSignature
    else if now < c.exp then .ok c
    else .error .expired

/-- The reference environment. -/
def refEnv : Env where
  envJwtSecret := none
  jwtSign := refSign
  jwtVerify := refVerify
  bcryptHash := fun password salt => password ++ "$" ++ salt
  bcryptCompare := fun password hash => (password.data ++ ['$']).isPrefixOf hash.data
  isEmail := fun s => s.data.contains '@'
  isURL := fun s => "http://".data.isPrefixOf s.data || "https://".data.isPrefixOf s.data

/-! ## Predicates on the database -/

/-- The row `register` inserts. -/
def newUserRow (E : Env) (salt : String) (now : Nat) (db : Db) (u e p : String) : UserRow :=
  ⟨nextRowid db.usersSeq (db.users.map (·.id)), u, e, E.bcryptHash p salt, now, now⟩

/-- No two user rows share a username and no two user rows share an email. -/
def UniqueUsers (db : Db) : Prop :=
  db.users.Pairwise (fun a b => a.username ≠ b.username ∧ a.email ≠ b.email)

/-- The databases reached from a freshly seeded one by `POST /register` requests whose body
fields are strings (or absent). -/
inductive ReachableUsers (E : Env) : Db → Prop where
  | seeded (salt : String) (now : Nat) :
      ReachableUsers E (initializeDatabase E salt now emptyDb)
  | register (salt : String) (now : Nat) (body : RegisterBody) {db : Db} :
      ReachableUsers E db → ReachableUsers E (register E salt now body db).2

/-- Usernames are non-empty and without `@`, emails contain `@`, and both are unique. -/
def UsersWF (db : Db) : Prop :=
  (∀ r ∈ db.users, r.username ≠ "" ∧ '@' ∉ r.username.data ∧ '@' ∈ r.email.data) ∧
  UniqueUsers db

/-- The reference database: a fresh file seeded at second 0 in the reference environment. -/
def refDb : Db := initializeDatabase refEnv "salt" 0 emptyDb

/-- The registration body `{ username: [], email: ['admin@example.com', 'evil@x.yz'],
password: 'password123' }`. -/
def arrayRegistration : RegisterJson :=
  ⟨.many [], .many ["admin@example.com", "evil@x.yz"], "password123"⟩

/-- The row filter both statements of `GET /` apply: none for an empty search, else the
`LIKE` clause. -/
def selects (search : String) (r : BrandRow) : Bool :=
  decide (search = "") || whereLike search r

/-- All rows `GET /` can return for a search, in the order it returns them. -/
def searchResult (search : String) (db : Db) : List BrandRow :=
  orderByCreatedAtDesc (db.brands.filter (selects search))

/-- The text `t` contains the term `s`. -/
def containsTerm (s t : List Char) : Prop :=
  ∃ pre post, t = pre ++ s ++ post

/-- The text `t` contains the term `s` up to the case of ASCII letters. -/
def containsTermNoCase (s t : List Char) : Prop :=
  ∃ pre mid post, t = pre ++ mid ++ post ∧ mid.map Char.toLower = s.map Char.toLower

/-- The name or the description of the row, read up to its first U+0000, contains the term,
up to the case of ASCII letters. -/
def rowContains (search : String) (r : BrandRow) : Prop :=
  containsTermNoCase search.data (cString r.name.data) ∨
  ∃ d, r.description = some d ∧ containsTermNoCase search.data (cString d.data)

/-- Every row of the brands table has a non-empty name. -/
def NonEmptyNames (db : Db) : Prop :=
  ∀ r ∈ db.brands, r.name ≠ ""

/-- No two rows of the brands table share an id (`id INTEGER PRIMARY KEY`). -/
def UniqueBrandIds (db : Db) : Prop :=
  (db.brands.map (fun r => r.id)).Nodup

/-- The condition of the login lookup `WHERE username = ? OR email = ?`, both parameters
being the username field `x` of the request. -/
def loginMatches (x : String) (r : UserRow) : Bool :=
  decide (r.username = x) || decide (r.email = x)

/-! ## Lemmas -/

theorem decNat_encNat (n : Nat) (rest : List Char) :
    decNat (encNat n ++ rest) = some (n, rest) := by
  induction n with
  | zero => simp [encNat, decNat]
  | succ k ih =>
    have h : encNat (k + 1) ++ rest = '1' :: (encNat k ++ rest) := by
      simp [encNat, List.replicate_succ]
    rw [h, decNat]
    simp [ih]

theorem decChars_encChars (s rest : List Char) :
    decChars s.length (encChars s ++ rest) = some (s, rest) := by
  induction s with
  | nil => simp [encChars, decChars]
  | cons c cs ih =>
    simp [encChars, decChars, List.append_assoc, decNat_encNat, ih, Char.ofNat_toNat]

theorem decStr_encStr (s rest : List Char) :
    decStr (encStr s ++ rest) = some (s, rest) := by
  simp [decStr, encStr, List.append_assoc, decNat_encNat, decChars_encChars]

theorem refDecode_refSign (p : TokenPayload) (secret : String) (ttl t : Nat) :
    refDecode (refSign p secret ttl t).data =
      some (⟨p.id, p.username, p.email, t, t + ttl⟩, secret.data) := by
  have h := decStr_encStr secret.data []
  simp only [List.append_nil] at h
  simp [refDecode, refSign, decNat_encNat, decStr_encStr, h]

theorem encNat_chars (n : Nat) : ∀ c ∈ encNat n, c = '0' ∨ c = '1' := by
  intro c hc
  simp only [encNat, List.mem_append, List.mem_replicate, List.mem_singleton] at hc
  rcases hc with ⟨_, h⟩ | h
  · exact Or.inr h
  · exact Or.inl h

theorem encChars_chars (s : List Char) : ∀ c ∈ encChars s, c = '0' ∨ c = '1' := by
  induction s with
  | nil => simp [encChars]
  | cons a as ih =>
    intro c hc
    simp only [encChars, List.mem_append] at hc
    rcases hc with h | h
    · exact encNat_chars _ c h
    · exact ih c h

theorem encStr_chars (s : List Char) : ∀ c ∈ encStr s, c = '0' ∨ c = '1' := by
  intro c hc
  simp only [encStr, List.mem_append] at hc
  rcases hc with h | h
  · exact encNat_chars _ c h
  · exact encChars_chars _ c h

theorem refEnv_jwtLaws : JwtLaws refEnv where
  verify_sign := by
    intro p secret ttl t t'
    show refVerify (refSign p secret ttl t) secret t' = _
    simp [refVerify, refDecode_refSign]
  sign_compact := by
    intro p secret ttl t
    show refSign p secret ttl t ≠ "" ∧ ' ' ∉ (refSign p secret ttl t).data
    constructor
    · intro h
      have := congrArg String.data h
      simp [refSign, encNat] at this
    · intro h
      simp only [refSign, List.mem_append] at h
      rcases h with h | h | h | h | h | h
      · rcases encNat_chars _ _ h with h | h <;> simp at h
      · rcases encNat_chars _ _ h with h | h <;> simp at h
      · rcases encNat_chars _ _ h with h | h <;> simp at h
      · rcases encStr_chars _ _ h with h | h <;> simp at h
      · rcases encStr_chars _ _ h with h | h <;> simp at h
      · rcases encStr_chars _ _ h with h | h <;> simp at h

theorem refEnv_emailLaws : EmailLaws refEnv where
  at_sign := by
    intro s h
    simpa [refEnv] using h

/-! ## The auth gate -/

theorem splitSpace_of_no_space (l : List Char) (h : ' ' ∉ l) : splitSpace l = [l] := by
  induction l with
  | nil => rfl
  | cons c cs ih =>
    have hc : c ≠ ' ' := fun e => h (by simp [e])
    have hcs : ' ' ∉ cs := fun m => h (List.mem_cons_of_mem _ m)
    simp [splitSpace, hc, ih hcs]

theorem bearerToken_bearer (token : String) (hsp : ' ' ∉ token.data) :
    bearerToken (some ("Bearer " ++ token)) = some token := by
  have hd : ("Bearer " ++ token).data = 'B' :: 'e' :: 'a' :: 'r' :: 'e' :: 'r' :: ' ' :: token.data := by
    rw [String.data_append]; rfl
  have hne : "Bearer " ++ token ≠ "" := by
    intro h
    have := congrArg String.data h
    rw [hd] at this
    simp at this
  simp [bearerToken, hne, hd, splitSpace, splitSpace_of_no_space _ hsp]

/-- C1. A protected endpoint answers 401 when the request has no `Authorization` header,
and 403 when the header is `Bearer <token>` (a token being a non-empty string without a
space) and `jwt.verify` rejects the token with any error; either way the answer is the same
whatever the handler behind the gate is, and the database comes back as it was: the
handler is not run and the tables are neither read nor written. -/
theorem authenticateToken_rejects (E : Env) (now : Nat)
    (handler : Claims → Db → Response × Db) (db : Db) (token : String) (e : VerifyError)
    (hne : token ≠ "") (hsp : ' ' ∉ token.data)
    (hv : E.jwtVerify token (JWT_SECRET E) now = .error e) :
    protectedRoute E now handler none db
        = (⟨401, .error "Токен доступа не предоставлен"⟩, db) ∧
    protectedRoute E now handler (some ("Bearer " ++ token)) db
        = (⟨403, .error "Недействительный токен"⟩, db) := by
  constructor
  · simp [protectedRoute, authenticateToken, bearerToken]
  · simp [protectedRoute, authenticateToken, bearerToken_bearer token hsp, hne, hv]

/-- Witness of C1: the reference environment, a handler that would delete every brand, and
the token `abc`, which does not decode. -/
theorem authenticateToken_rejects_witness :
    ("abc" ≠ "" ∧ ' ' ∉ "abc".data ∧
      refEnv.jwtVerify "abc" (JWT_SECRET refEnv) 7 = .error .malformed) ∧
    protectedRoute refEnv 7 (fun _ d => (⟨200, .message "ok"⟩, { d with brands := [] }))
        none (initializeDatabase refEnv "s" 0 emptyDb)
      = (⟨401, .error "Токен доступа не предоставлен"⟩,
          initializeDatabase refEnv "s" 0 emptyDb) ∧
    protectedRoute refEnv 7 (fun _ d => (⟨200, .message "ok"⟩, { d with brands := [] }))
        (some ("Bearer " ++ "abc")) (initializeDatabase refEnv "s" 0 emptyDb)
      = (⟨403, .error "Недействительный токен"⟩,
          initializeDatabase refEnv "s" 0 emptyDb) :=
  ⟨⟨by decide, by decide, rfl⟩,
   authenticateToken_rejects refEnv 7 _ _ "abc" .malformed (by decide) (by decide) rfl⟩

/-- C2. The token `generateToken(u)` issued at time `t` lives 24 hours: sent as
`Bearer <token>` at a time `t₁` with `t ≤ t₁ < t + 24h`, `authenticateToken` calls `next`
with `req.user` carrying the id, username and email of `u` (and `iat = t`,
`exp = t + 24h`); sent at a time `t₂ > t + 24h` the answer is 403. -/
theorem generateToken_lifetime (E : Env) (hJ : JwtLaws E) (id : Nat) (username email : String)
    (t t₁ t₂ : Nat) (h₁ : t ≤ t₁) (h₁' : t₁ < t + 24 * 60 * 60) (h₂ : t + 24 * 60 * 60 < t₂) :
    (∃ user, authenticateToken E t₁ (some ("Bearer " ++ generateToken E t id username email))
        = .next user ∧ user.id = id ∧ user.username = username ∧ user.email = email ∧
          user.iat = t ∧ user.exp = t + 24 * 60 * 60) ∧
    authenticateToken E t₂ (some ("Bearer " ++ generateToken E t id username email))
        = .respond ⟨403, .error "Недействительный токен"⟩ := by
  have _ := h₁
  obtain ⟨hne, hsp⟩ := hJ.sign_compact ⟨id, username, email⟩ (JWT_SECRET E) expiresIn24h t
  have hv := hJ.verify_sign ⟨id, username, email⟩ (JWT_SECRET E) expiresIn24h t
  have h24 : expiresIn24h = 24 * 60 * 60 := rfl
  constructor
  · refine ⟨⟨id, username, email, t, t + 24 * 60 * 60⟩, ?_, rfl, rfl, rfl, rfl, rfl⟩
    have hlt : t₁ < t + expiresIn24h := by rw [h24]; exact h₁'
    show authenticateToken E t₁ _ = Gate.next ⟨id, username, email, t, t + expiresIn24h⟩
    simp only [authenticateToken, generateToken, bearerToken_bearer _ hsp, hne, hv t₁, hlt,
      if_true, if_false]
  · have hge : ¬ t₂ < t + expiresIn24h := by rw [h24]; omega
    simp only [authenticateToken, generateToken, bearerToken_bearer _ hsp, hne, hv t₂, hge,
      if_false]

/-- Witness of C2: the seeded admin, a token issued at second 100, shown one second before
and one second after its expiry. -/
theorem generateToken_lifetime_witness :
    (100 ≤ 100 + 86399 ∧ 100 + 86399 < 100 + 24 * 60 * 60 ∧ 100 + 24 * 60 * 60 < 100 + 86401) ∧
    (∃ user, authenticateToken refEnv (100 + 86399)
        (some ("Bearer " ++ generateToken refEnv 100 1 "admin" "admin@example.com"))
        = .next user ∧ user.id = 1 ∧ user.username = "admin" ∧
          user.email = "admin@example.com" ∧ user.iat = 100 ∧ user.exp = 100 + 24 * 60 * 60) ∧
    authenticateToken refEnv (100 + 86401)
        (some ("Bearer " ++ generateToken refEnv 100 1 "admin" "admin@example.com"))
        = .respond ⟨403, .error "Недействительный токен"⟩ :=
  ⟨⟨by decide, by decide, by decide⟩,
   generateToken_lifetime refEnv refEnv_jwtLaws 1 "admin" "admin@example.com" 100
     (100 + 86399) (100 + 86401) (by decide) (by decide) (by decide)⟩

/-! ## Registration and login -/

theorem registerValidators_eq_nil (E : Env) (body : RegisterBody) :
    registerValidators E body = [] ↔
      (isLength (fieldString body.username) 3 (some 30) = true ∧
       matchesUsername (fieldString body.username) = true ∧
       E.isEmail (fieldString body.email) = true ∧
       isLength (fieldString body.password) 6 none = true) := by
  unfold registerValidators
  by_cases h1 : isLength (fieldString body.username) 3 (some 30) = true <;>
  by_cases h2 : matchesUsername (fieldString body.username) = true <;>
  by_cases h3 : E.isEmail (fieldString body.email) = true <;>
  by_cases h4 : isLength (fieldString body.password) 6 none = true <;>
  simp [h1, h2, h3, h4]

theorem loginValidators_eq_nil (body : LoginBody) :
    loginValidators body = [] ↔
      (fieldString body.username ≠ "" ∧ fieldString body.password ≠ "") := by
  unfold loginValidators notEmpty
  by_cases h1 : fieldString body.username = "" <;>
  by_cases h2 : fieldString body.password = "" <;>
  simp [h1, h2]

theorem find?_user_none {l : List UserRow} {u e : String} :
    l.find? (fun r => decide (r.username = u) || decide (r.email = e)) = none ↔
      ∀ r ∈ l, r.username ≠ u ∧ r.email ≠ e := by
  simp [List.find?_eq_none]

theorem any_user_false {l : List UserRow} {u e : String}
    (h : ∀ r ∈ l, r.username ≠ u ∧ r.email ≠ e) :
    l.any (fun r => decide (r.username = u) || decide (r.email = e)) = false := by
  rw [List.any_eq_false]
  intro r hr
  have := h r hr
  simp [this.1, this.2]

/-- A registration with a valid body and an unused username and email inserts one row and
answers 201. -/
theorem register_fresh (E : Env) (salt : String) (now : Nat) (db : Db) (u e p : String)
    (hv : registerValidators E ⟨some u, some e, some p⟩ = [])
    (hfree : ∀ r ∈ db.users, r.username ≠ u ∧ r.email ≠ e) :
    register E salt now ⟨some u, some e, some p⟩ db =
      (⟨201, .auth "Пользователь успешно зарегистрирован"
          (generateToken E now (newUserRow E salt now db u e p).id u e)
          (userObject (newUserRow E salt now db u e p).id u e)⟩,
       { db with users := db.users ++ [newUserRow E salt now db u e p],
                 usersSeq := (newUserRow E salt now db u e p).id }) := by
  simp [register, hv, find?_user_none.2 hfree, insertUser, any_user_false hfree, newUserRow]

/-- A registration leaves the database as it was or appends one row whose username and
email no earlier row has and whose fields passed the validators. -/
theorem register_effect (E : Env) (salt : String) (now : Nat) (body : RegisterBody) (db : Db) :
    (register E salt now body db).2 = db ∨
    ∃ u e p, body = ⟨some u, some e, some p⟩ ∧ registerValidators E body = [] ∧
      (∀ r ∈ db.users, r.username ≠ u ∧ r.email ≠ e) ∧
      (register E salt now body db).2 =
        { db with users := db.users ++ [newUserRow E salt now db u e p],
                  usersSeq := (newUserRow E salt now db u e p).id } := by
  by_cases hv : registerValidators E body = []
  · obtain ⟨u, e, p⟩ := body
    cases u with
    | none => left; simp [register, hv]
    | some u =>
      cases e with
      | none => left; simp [register, hv]
      | some e =>
        cases p with
        | none => left; simp [register, hv]
        | some p =>
          cases hf : db.users.find? (fun r => decide (r.username = u) || decide (r.email = e)) with
          | some r => left; simp [register, hv, hf]
          | none =>
            right
            have hfree := find?_user_none.1 hf
            exact ⟨u, e, p, rfl, hv, hfree, by rw [register_fresh E salt now db u e p hv hfree]⟩
  · left
    simp [register, hv]

/-- A login never writes to the database. -/
theorem login_db (E : Env) (now : Nat) (body : LoginBody) (db : Db) :
    (login E now body db).2 = db := by
  unfold login
  dsimp only
  repeat' split
  all_goals rfl

theorem seeded_users (E : Env) (salt : String) (now : Nat) :
    (initializeDatabase E salt now emptyDb).users =
      [⟨1, "admin", "admin@example.com", E.bcryptHash "admin123" salt, now, now⟩] := by
  simp [initializeDatabase, insertUser, insertBrand, testBrands, emptyDb, nextRowid]

theorem le_foldr_max {ids : List Nat} {x : Nat} (h : x ∈ ids) : x ≤ ids.foldr max 0 := by
  induction ids with
  | nil => cases h
  | cons a as ih =>
    simp only [List.foldr_cons]
    rcases List.mem_cons.1 h with rfl | h
    · exact le_max_left _ _
    · exact le_trans (ih h) (le_max_right _ _)

theorem lt_nextRowid {seq : Nat} {ids : List Nat} {x : Nat} (h : x ∈ ids) :
    x < nextRowid seq ids := by
  have := le_foldr_max h
  unfold nextRowid
  omega

theorem isWordChar_at_sign : isWordChar '@' = false := by decide

theorem matchesUsername_spec {s : String} (h : matchesUsername s = true) :
    s ≠ "" ∧ '@' ∉ s.data := by
  simp only [matchesUsername, Bool.and_eq_true, Bool.not_eq_true', List.all_eq_true] at h
  constructor
  · intro e
    rw [e] at h
    simp at h
  · intro hm
    have := h.2 _ hm
    rw [isWordChar_at_sign] at this
    cases this

theorem uniqueUsers_append {db : Db} {row : UserRow} {seq : Nat} (h : UniqueUsers db)
    (hfree : ∀ r ∈ db.users, r.username ≠ row.username ∧ r.email ≠ row.email) :
    UniqueUsers { db with users := db.users ++ [row], usersSeq := seq } := by
  unfold UniqueUsers at *
  simp only [List.pairwise_append, List.pairwise_cons, List.mem_singleton]
  refine ⟨h, ⟨by simp, List.Pairwise.nil⟩, ?_⟩
  intro a ha b hb
  rw [hb]
  exact hfree a ha

theorem uniqueUsers_register (E : Env) (salt : String) (now : Nat) (body : RegisterBody)
    {db : Db} (h : UniqueUsers db) : UniqueUsers (register E salt now body db).2 := by
  rcases register_effect E salt now body db with he | ⟨u, e, p, _, _, hfree, he⟩
  · rw [he]; exact h
  · rw [he]
    exact uniqueUsers_append h hfree

theorem uniqueUsers_seeded (E : Env) (salt : String) (now : Nat) :
    UniqueUsers (initializeDatabase E salt now emptyDb) := by
  unfold UniqueUsers
  rw [seeded_users]
  simp

theorem usersWF_of_reachable (E : Env) (hE : EmailLaws E) {db : Db}
    (h : ReachableUsers E db) : UsersWF db := by
  induction h with
  | seeded salt now =>
    refine ⟨?_, uniqueUsers_seeded E salt now⟩
    rw [seeded_users]
    intro r hr
    rw [List.mem_singleton] at hr
    subst hr
    exact ⟨show "admin" ≠ "" by decide, show '@' ∉ "admin".data by decide,
      show '@' ∈ "admin@example.com".data by decide⟩
  | @register salt now body db _ ih =>
    rcases register_effect E salt now body db with he | ⟨u, e, p, hb, hv, hfree, he⟩
    · rw [he]; exact ih
    · rw [he]
      refine ⟨?_, uniqueUsers_append ih.2 hfree⟩
      intro r hr
      simp only [List.mem_append, List.mem_singleton] at hr
      rcases hr with hr | hr
      · exact ih.1 r hr
      · subst hr
        rw [hb, registerValidators_eq_nil] at hv
        obtain ⟨_, h2, h3, _⟩ := hv
        have hu := matchesUsername_spec h2
        exact ⟨hu.1, hu.2, hE.at_sign _ h3⟩

theorem selectUser_none {l : List UserRow} {a b : String} :
    selectUser a b l = none ↔ ∀ r ∈ l, r.username ≠ a ∧ r.email ≠ b := by
  unfold selectUser
  cases hf : l.find? (fun r => decide (r.username = a)) with
  | some r =>
    have hm := List.find?_some hf
    simp only [decide_eq_true_eq] at hm
    constructor
    · intro h
      cases h
    · intro h
      exact absurd hm (h r (List.mem_of_find?_eq_some hf)).1
  | none =>
    rw [List.find?_eq_none] at hf
    simp only [List.find?_eq_none, decide_eq_true_eq]
    constructor
    · intro h r hr
      exact ⟨by simpa using hf r hr, h r hr⟩
    · intro h r hr
      exact (h r hr).2

theorem selectUser_some {l : List UserRow} {a b : String} {r : UserRow}
    (h : selectUser a b l = some r) : r ∈ l ∧ (r.username = a ∨ r.email = b) := by
  unfold selectUser at h
  cases hf : l.find? (fun r => decide (r.username = a)) with
  | some r' =>
    rw [hf] at h
    simp only [Option.some.injEq] at h
    subst h
    exact ⟨List.mem_of_find?_eq_some hf, Or.inl (by simpa using List.find?_some hf)⟩
  | none =>
    rw [hf] at h
    exact ⟨List.mem_of_find?_eq_some h, Or.inr (by simpa using List.find?_some h)⟩

theorem find?_eq_some_of_unique {p : UserRow → Bool} {l : List UserRow} {u : UserRow}
    (hu : u ∈ l) (hp : p u = true) (huniq : ∀ r ∈ l, p r = true → r = u) :
    l.find? p = some u := by
  cases hf : l.find? p with
  | none =>
    rw [List.find?_eq_none] at hf
    exact absurd hp (hf u hu)
  | some r => rw [huniq r (List.mem_of_find?_eq_some hf) (List.find?_some hf)]

theorem selectUser_self {l : List UserRow}
    (hwf : ∀ r ∈ l, '@' ∉ r.username.data ∧ '@' ∈ r.email.data)
    (hpw : l.Pairwise (fun a b => a.username ≠ b.username ∧ a.email ≠ b.email))
    {u : UserRow} (hu : u ∈ l) :
    selectUser u.username u.username l = some u ∧ selectUser u.email u.email l = some u := by
  have hsym : Symmetric (fun a b : UserRow => a.username ≠ b.username ∧ a.email ≠ b.email) :=
    fun _ _ h => ⟨fun e => h.1 e.symm, fun e => h.2 e.symm⟩
  have hall := hpw.forall hsym
  have h1 : l.find? (fun r => decide (r.username = u.username)) = some u := by
    apply find?_eq_some_of_unique hu (by simp)
    intro r hr hm
    by_contra hne
    exact (hall hr hu hne).1 (by simpa using hm)
  have h2 : l.find? (fun r => decide (r.username = u.email)) = none := by
    rw [List.find?_eq_none]
    intro r hr
    simp only [decide_eq_true_eq]
    intro e
    exact (hwf r hr).1 (by rw [e]; exact (hwf u hu).2)
  have h3 : l.find? (fun r => decide (r.email = u.email)) = some u := by
    apply find?_eq_some_of_unique hu (by simp)
    intro r hr hm
    by_contra hne
    exact (hall hr hu hne).2 (by simpa using hm)
  constructor
  · simp [selectUser, h1]
  · simp [selectUser, h2, h3]

/-- Logins whose fields are strings do not tell whether the account exists. With non-empty
strings as username and password, a login whose username field names an existing account
(by username or by email) but whose password matches no such account, and a login whose
username field matches no row at all, get the same response: status 401 with the one
message `Неверные учетные данные`; the table is untouched. -/
theorem login_no_existence_leak (E : Env) (now : Nat) (db : Db) (x p y q : String)
    (hx : x ≠ "") (hp : p ≠ "") (hy : y ≠ "") (hq : q ≠ "")
    (hex : ∃ r ∈ db.users, r.username = x ∨ r.email = x)
    (hwrong : ∀ r ∈ db.users, (r.username = x ∨ r.email = x) →
      E.bcryptCompare p r.password = false)
    (hnone : ∀ r ∈ db.users, r.username ≠ y ∧ r.email ≠ y) :
    login E now ⟨some x, some p⟩ db = (⟨401, .error "Неверные учетные данные"⟩, db) ∧
    login E now ⟨some y, some q⟩ db = (⟨401, .error "Неверные учетные данные"⟩, db) := by
  have hv1 : loginValidators ⟨some x, some p⟩ = [] :=
    (loginValidators_eq_nil _).2 ⟨hx, hp⟩
  have hv2 : loginValidators ⟨some y, some q⟩ = [] :=
    (loginValidators_eq_nil _).2 ⟨hy, hq⟩
  constructor
  · cases hf : selectUser x x db.users with
    | none =>
      obtain ⟨r, hr, hm⟩ := hex
      have := selectUser_none.1 hf r hr
      rcases hm with hm | hm
      · exact absurd hm this.1
      · exact absurd hm this.2
    | some r =>
      obtain ⟨hr, hm⟩ := selectUser_some hf
      simp [login, hv1, hf, hwrong r hr hm]
  · simp [login, hv2, selectUser_none.2 hnone]

/-- On the seeded table: `admin` with a wrong password and the unknown name `nobody`. -/
theorem login_no_existence_leak_witness :
    ("admin" ≠ "" ∧ "wrongpassword" ≠ "" ∧ "nobody" ≠ "" ∧ "admin123" ≠ "" ∧
      (∃ r ∈ refDb.users, r.username = "admin" ∨ r.email = "admin") ∧
      (∀ r ∈ refDb.users, (r.username = "admin" ∨ r.email = "admin") →
        refEnv.bcryptCompare "wrongpassword" r.password = false) ∧
      (∀ r ∈ refDb.users, r.username ≠ "nobody" ∧ r.email ≠ "nobody")) ∧
    login refEnv 5 ⟨some "admin", some "wrongpassword"⟩ refDb
      = (⟨401, .error "Неверные учетные данные"⟩, refDb) ∧
    login refEnv 5 ⟨some "nobody", some "admin123"⟩ refDb
      = (⟨401, .error "Неверные учетные данные"⟩, refDb) :=
  ⟨⟨by decide, by decide, by decide, by decide, by decide, by decide, by decide⟩,
   login_no_existence_leak refEnv 5 refDb "admin" "wrongpassword" "nobody" "admin123"
     (by decide) (by decide) (by decide) (by decide) (by decide) (by decide) (by decide)⟩

/-- In a users table reached from the seeded one by registrations whose fields are strings,
for a stored user `u` and a (non-empty) password `p` that `bcrypt.compare` accepts against
the stored hash, login with the username field equal to `u.username`, and login with it
equal to `u.email`, answer 200 with a token issued for `u` and the user object
`{ id, username, email }` of `u`, which has no `password` key; the table is untouched. -/
theorem login_succeeds (E : Env) (hE : EmailLaws E) (db : Db) (hr : ReachableUsers E db)
    (now : Nat) (u : UserRow) (hu : u ∈ db.users) (p : String) (hp : p ≠ "")
    (hm : E.bcryptCompare p u.password = true) :
    login E now ⟨some u.username, some p⟩ db
      = (⟨200, .auth "Успешный вход" (generateToken E now u.id u.username u.email)
            [("id", .num u.id), ("username", .str u.username), ("email", .str u.email)]⟩, db) ∧
    login E now ⟨some u.email, some p⟩ db
      = (⟨200, .auth "Успешный вход" (generateToken E now u.id u.username u.email)
            [("id", .num u.id), ("username", .str u.username), ("email", .str u.email)]⟩, db) ∧
    (userObject u.id u.username u.email).lookup "password" = none := by
  have hwf := usersWF_of_reachable E hE hr
  have hrow := hwf.1 u hu
  have hf := selectUser_self (fun r h => (hwf.1 r h).2) hwf.2 hu
  have heM : u.email ≠ "" := by
    intro e
    have := hrow.2.2
    rw [e] at this
    simp at this
  have hv1 : loginValidators ⟨some u.username, some p⟩ = [] :=
    (loginValidators_eq_nil _).2 ⟨hrow.1, hp⟩
  have hv2 : loginValidators ⟨some u.email, some p⟩ = [] :=
    (loginValidators_eq_nil _).2 ⟨heM, hp⟩
  refine ⟨?_, ?_, by simp [userObject, List.lookup]⟩
  · simp [login, hv1, hf.1, hm, userObject]
  · simp [login, hv2, hf.2, hm, userObject]

/-- The seeded account `admin` / `admin123` logs in by username and by email. -/
theorem login_succeeds_witness :
    ((⟨1, "admin", "admin@example.com", "admin123$salt", 0, 0⟩ : UserRow) ∈ refDb.users ∧
      "admin123" ≠ "" ∧ refEnv.bcryptCompare "admin123" "admin123$salt" = true) ∧
    login refEnv 5 ⟨some "admin", some "admin123"⟩ refDb
      = (⟨200, .auth "Успешный вход" (generateToken refEnv 5 1 "admin" "admin@example.com")
            [("id", .num 1), ("username", .str "admin"),
             ("email", .str "admin@example.com")]⟩, refDb) ∧
    login refEnv 5 ⟨some "admin@example.com", some "admin123"⟩ refDb
      = (⟨200, .auth "Успешный вход" (generateToken refEnv 5 1 "admin" "admin@example.com")
            [("id", .num 1), ("username", .str "admin"),
             ("email", .str "admin@example.com")]⟩, refDb) ∧
    (userObject 1 "admin" "admin@example.com").lookup "password" = none :=
  ⟨⟨by decide, by decide, by decide⟩,
   login_succeeds refEnv refEnv_emailLaws refDb (ReachableUsers.seeded "salt" 0) 5
     ⟨1, "admin", "admin@example.com", "admin123$salt", 0, 0⟩ (by decide) "admin123"
     (by decide) (by decide)⟩

/-- C5. A registration whose body passes the validators and whose username is the username
of a stored user, or whose email is the email of a stored user, answers 409 and returns the
database as it was: no row is inserted and no row is altered. -/
theorem register_conflict (E : Env) (salt : String) (now : Nat) (db : Db) (u e p : String)
    (hv : registerValidators E ⟨some u, some e, some p⟩ = [])
    (hex : ∃ r ∈ db.users, r.username = u ∨ r.email = e) :
    register E salt now ⟨some u, some e, some p⟩ db
      = (⟨409, .error "Пользователь с таким именем или email уже существует"⟩, db) := by
  cases hf : db.users.find? (fun r => decide (r.username = u) || decide (r.email = e)) with
  | none =>
    obtain ⟨r, hr, hm⟩ := hex
    have := find?_user_none.1 hf r hr
    rcases hm with hm | hm
    · exact absurd hm this.1
    · exact absurd hm this.2
  | some r => simp [register, hv, hf]

/-- Witness of C5: registering `admin` again, under a new email, on the seeded table. -/
theorem register_conflict_witness :
    (registerValidators refEnv ⟨some "admin", some "other@example.com", some "password123"⟩ = [] ∧
      ∃ r ∈ refDb.users, r.username = "admin" ∨ r.email = "other@example.com") ∧
    register refEnv "pepper" 9 ⟨some "admin", some "other@example.com", some "password123"⟩ refDb
      = (⟨409, .error "Пользователь с таким именем или email уже существует"⟩, refDb) :=
  ⟨⟨by decide, by decide⟩,
   register_conflict refEnv "pepper" 9 refDb "admin" "other@example.com" "password123"
     (by decide) (by decide)⟩

/-- C6. A registration whose body passes the validators and whose username and email no
stored user has answers 201 with a token issued for the new identity and the user object
`{ id, username, email }` (no password), where `id` is the rowid of the new row and differs
from every earlier id; the users table is the old one followed by exactly one new row,
which holds the submitted username and email and, as its password, the bcrypt hash of the
submitted password; the brands table is untouched. -/
theorem register_creates_user (E : Env) (salt : String) (now : Nat) (db : Db) (u e p : String)
    (hv : registerValidators E ⟨some u, some e, some p⟩ = [])
    (hfree : ∀ r ∈ db.users, r.username ≠ u ∧ r.email ≠ e) :
    ∃ (id : Nat) (row : UserRow),
      register E salt now ⟨some u, some e, some p⟩ db
        = (⟨201, .auth "Пользователь успешно зарегистрирован" (generateToken E now id u e)
              [("id", .num id), ("username", .str u), ("email", .str e)]⟩,
           { db with users := db.users ++ [row], usersSeq := id }) ∧
      row = ⟨id, u, e, E.bcryptHash p salt, now, now⟩ ∧
      (∀ r ∈ db.users, r.id ≠ id) ∧
      (register E salt now ⟨some u, some e, some p⟩ db).2.brands = db.brands := by
  refine ⟨(newUserRow E salt now db u e p).id, newUserRow E salt now db u e p, ?_, rfl,
    ?_, ?_⟩
  · rw [register_fresh E salt now db u e p hv hfree]
    rfl
  · intro r hr
    have : r.id < nextRowid db.usersSeq (db.users.map (fun x : UserRow => x.id)) :=
      lt_nextRowid (List.mem_map_of_mem (fun x : UserRow => x.id) hr)
    have hid : (newUserRow E salt now db u e p).id
        = nextRowid db.usersSeq (db.users.map (fun x : UserRow => x.id)) := rfl
    omega
  · rw [register_fresh E salt now db u e p hv hfree]

/-- Witness of C6: the registration of the test suite, on the seeded table. -/
theorem register_creates_user_witness :
    (registerValidators refEnv ⟨some "testuser", some "test@example.com", some "password123"⟩ = [] ∧
      ∀ r ∈ refDb.users, r.username ≠ "testuser" ∧ r.email ≠ "test@example.com") ∧
    ∃ (id : Nat) (row : UserRow),
      register refEnv "pepper" 9
          ⟨some "testuser", some "test@example.com", some "password123"⟩ refDb
        = (⟨201, .auth "Пользователь успешно зарегистрирован"
              (generateToken refEnv 9 id "testuser" "test@example.com")
              [("id", .num id), ("username", .str "testuser"),
               ("email", .str "test@example.com")]⟩,
           { refDb with users := refDb.users ++ [row], usersSeq := id }) ∧
      row = ⟨id, "testuser", "test@example.com", refEnv.bcryptHash "password123" "pepper", 9, 9⟩ ∧
      (∀ r ∈ refDb.users, r.id ≠ id) ∧
      (register refEnv "pepper" 9
          ⟨some "testuser", some "test@example.com", some "password123"⟩ refDb).2.brands
        = refDb.brands :=
  ⟨⟨by decide, by decide⟩,
   register_creates_user refEnv "pepper" 9 refDb "testuser" "test@example.com" "password123"
     (by decide) (by decide)⟩

/-- C7. Uniqueness of usernames and of emails is an invariant of the users table: it holds
in the freshly seeded database, and from any database where it holds, every register request
and every login request, whatever its body, leads to a database where it holds. -/
theorem uniqueUsers_invariant (E : Env) (salt : String) (now : Nat) (db : Db)
    (h : UniqueUsers db) (rbody : RegisterBody) (lbody : LoginBody) :
    UniqueUsers (initializeDatabase E salt now emptyDb) ∧
    UniqueUsers (register E salt now rbody db).2 ∧
    UniqueUsers (login E now lbody db).2 := by
  refine ⟨uniqueUsers_seeded E salt now, uniqueUsers_register E salt now rbody h, ?_⟩
  rw [login_db]
  exact h

/-- Witness of C7: the seeded table, a registration that reuses the seeded email and a
login. -/
theorem uniqueUsers_invariant_witness :
    UniqueUsers refDb ∧
    UniqueUsers (initializeDatabase refEnv "pepper" 9 emptyDb) ∧
    UniqueUsers (register refEnv "pepper" 9
      ⟨some "admin2", some "admin@example.com", some "password123"⟩ refDb).2 ∧
    UniqueUsers (login refEnv 9 ⟨some "admin", some "admin123"⟩ refDb).2 :=
  ⟨uniqueUsers_seeded refEnv "salt" 0,
   uniqueUsers_invariant refEnv "pepper" 9 refDb (uniqueUsers_seeded refEnv "salt" 0)
     ⟨some "admin2", some "admin@example.com", some "password123"⟩
     ⟨some "admin", some "admin123"⟩⟩

/-- On bodies whose fields are strings or absent, the auth routes reject a shape-invalid
body before they touch the store. A register body whose password has fewer than 6
characters, or whose username is not 3 to 30 characters all of them letters, digits or
underscore, or whose email `isEmail` rejects, gets 400; a login body whose username or
password is absent or empty gets 400; in both cases the database is returned as it was. -/
theorem auth_rejects_invalid_shape (E : Env) (salt : String) (now : Nat) (db : Db)
    (rbody : RegisterBody) (lbody : LoginBody)
    (hreg : validatorLength (fieldString rbody.password) < 6 ∨
      ¬ (3 ≤ validatorLength (fieldString rbody.username) ∧
          validatorLength (fieldString rbody.username) ≤ 30 ∧
          ∀ c ∈ (fieldString rbody.username).data, c.isAlpha ∨ c.isDigit ∨ c = '_') ∨
      E.isEmail (fieldString rbody.email) = false)
    (hlog : lbody.username = none ∨ lbody.username = some "" ∨
      lbody.password = none ∨ lbody.password = some "") :
    ((register E salt now rbody db).1.status = 400 ∧ (register E salt now rbody db).2 = db) ∧
    ((login E now lbody db).1.status = 400 ∧ (login E now lbody db).2 = db) := by
  have hr : registerValidators E rbody ≠ [] := by
    intro hnil
    rw [registerValidators_eq_nil] at hnil
    obtain ⟨h1, h2, h3, h4⟩ := hnil
    simp only [isLength, Bool.and_eq_true, decide_eq_true_eq, Bool.and_true] at h1 h4
    simp only [matchesUsername, Bool.and_eq_true, List.all_eq_true] at h2
    rcases hreg with h | h | h
    · omega
    · apply h
      refine ⟨h1.1, h1.2, ?_⟩
      intro c hc
      have := h2.2 c hc
      simp only [isWordChar, Char.isAlphanum, Bool.or_eq_true, decide_eq_true_eq] at this
      tauto
    · rw [h3] at h
      cases h
  have hl : loginValidators lbody ≠ [] := by
    intro hnil
    rw [loginValidators_eq_nil] at hnil
    rcases hlog with h | h | h | h
    · exact hnil.1 (by rw [h]; rfl)
    · exact hnil.1 (by rw [h]; rfl)
    · exact hnil.2 (by rw [h]; rfl)
    · exact hnil.2 (by rw [h]; rfl)
  refine ⟨⟨?_, ?_⟩, ⟨?_, login_db E now lbody db⟩⟩
  · simp [register, hr]
  · simp [register, hr]
  · simp [login, hl]

/-- A five-character password on register and the empty body on login, as in the test
suite. -/
theorem auth_rejects_invalid_shape_witness :
    (validatorLength (fieldString (some "12345")) < 6 ∨
      ¬ (3 ≤ validatorLength (fieldString (some "testuser")) ∧
          validatorLength (fieldString (some "testuser")) ≤ 30 ∧
          ∀ c ∈ (fieldString (some "testuser")).data, c.isAlpha ∨ c.isDigit ∨ c = '_') ∨
      refEnv.isEmail (fieldString (some "test@example.com")) = false) ∧
    ((none : Option String) = none ∨ (none : Option String) = some "" ∨
      (none : Option String) = none ∨ (none : Option String) = some "") ∧
    ((register refEnv "pepper" 9
        ⟨some "testuser", some "test@example.com", some "12345"⟩ refDb).1.status = 400 ∧
     (register refEnv "pepper" 9
        ⟨some "testuser", some "test@example.com", some "12345"⟩ refDb).2 = refDb) ∧
    ((login refEnv 9 ⟨none, none⟩ refDb).1.status = 400 ∧
     (login refEnv 9 ⟨none, none⟩ refDb).2 = refDb) :=
  ⟨Or.inl (by decide), Or.inl rfl,
   auth_rejects_invalid_shape refEnv "pepper" 9 refDb
     ⟨some "testuser", some "test@example.com", some "12345"⟩ ⟨none, none⟩
     (Or.inl (by decide)) (Or.inl rfl)⟩

/-! ## Creating and listing brands -/

/-- A `POST /` answered 201 appended the brand of its response, stamped with the clock, to
the table. -/
theorem createBrand_created {E : Env} {maxYear : Int} {now : Nat} {body : BrandBody} {db : Db}
    (h : (createBrand E maxYear now body db).1.status = 201) :
    ∃ row : BrandRow,
      createBrand E maxYear now body db
        = (⟨201, .brand row⟩, { db with brands := db.brands ++ [row], brandsSeq := row.id }) ∧
      row.created_at = now := by
  unfold createBrand at h ⊢
  by_cases hv : brandValidators E maxYear body = []
  · cases hn : body.name with
    | none => simp [hv, hn] at h
    | some name =>
      exact ⟨⟨(insertBrand db name body.description body.logo_url body.website
          (yearValue body.founded_year) body.country body.industry now).1, name,
          body.description, body.logo_url, body.website, yearValue body.founded_year,
          body.country, body.industry, now, now⟩, by simp [hv, insertBrand], rfl⟩
  · simp [hv] at h

theorem runCreates_brands (E : Env) (maxYear : Int) (cs : List (Nat × BrandBody)) (db : Db)
    (hok : ∀ r ∈ (runCreates E maxYear cs db).1, r.status = 201) :
    (runCreates E maxYear cs db).2.brands
        = db.brands ++ createdBrands (runCreates E maxYear cs db).1 ∧
    (createdBrands (runCreates E maxYear cs db).1).map (fun b => b.created_at)
        = cs.map (fun c => c.1) := by
  induction cs generalizing db with
  | nil => simp [runCreates, createdBrands]
  | cons c rest ih =>
    obtain ⟨now, body⟩ := c
    simp only [runCreates, List.mem_cons, forall_eq_or_imp] at hok
    obtain ⟨row, hrow, hat⟩ := createBrand_created hok.1
    have ih' := ih (createBrand E maxYear now body db).2 hok.2
    simp only [runCreates]
    rw [hrow] at ih' ⊢
    simp only [createdBrands, List.map_cons]
    rw [ih'.1, ih'.2, hat]
    simp

theorem isTotal_createdDesc : IsTotal BrandRow (fun a b => b.created_at ≤ a.created_at) :=
  ⟨fun a b => Nat.le_total b.created_at a.created_at⟩

theorem isTrans_createdDesc : IsTrans BrandRow (fun a b => b.created_at ≤ a.created_at) :=
  ⟨fun _ _ _ h₁ h₂ => Nat.le_trans h₂ h₁⟩

theorem orderByCreatedAtDesc_sorted (rows : List BrandRow) :
    (orderByCreatedAtDesc rows).Pairwise (fun a b => b.created_at ≤ a.created_at) := by
  haveI := isTotal_createdDesc
  haveI := isTrans_createdDesc
  exact List.sorted_insertionSort _ rows

theorem orderByCreatedAtDesc_perm (rows : List BrandRow) :
    (orderByCreatedAtDesc rows).Perm rows :=
  List.perm_insertionSort _ rows

/-- Counterexample to C9 as stated: two brands created one after the other within the same
clock second are listed oldest first, `First` before `Second`, because `created_at` has a
resolution of one second and `ORDER BY created_at DESC` leaves equal timestamps in rowid
order. -/
theorem list_same_second_oldest_first :
    (runCreates refEnv 2026 [(50, nameOnly "First"), (50, nameOnly "Second")] emptyDb).1.map
        (fun r => r.status) = [201, 201] ∧
    (getBrands ⟨some "1", some "2", none⟩
        (runCreates refEnv 2026 [(50, nameOnly "First"), (50, nameOnly "Second")] emptyDb).2).1
      = ⟨200, .brandList
          [⟨1, "First", none, none, none, none, none, none, 50, 50⟩,
           ⟨2, "Second", none, none, none, none, none, none, 50, 50⟩] 2 1 1 false false⟩ := by
  decide

theorem insertionSort_append_newest (l : List BrandRow) (x : BrandRow)
    (h : ∀ y ∈ l, y.created_at < x.created_at) :
    orderByCreatedAtDesc (l ++ [x]) = x :: orderByCreatedAtDesc l := by
  unfold orderByCreatedAtDesc
  induction l with
  | nil => rfl
  | cons a as ih =>
    have ha : ¬ x.created_at ≤ a.created_at := by
      have := h a (List.mem_cons_self _ _)
      omega
    have ih' := ih (fun y hy => h y (List.mem_cons_of_mem _ hy))
    simp only [List.cons_append, List.insertionSort_cons_eq_take_drop] at ih' ⊢
    rw [ih']
    simp [List.takeWhile, List.dropWhile, ha]

theorem orderByCreatedAtDesc_increasing (l : List BrandRow)
    (h : (l.map (fun b => b.created_at)).Pairwise (· < ·)) :
    orderByCreatedAtDesc l = l.reverse := by
  induction l using List.reverseRecOn with
  | nil => rfl
  | append_singleton l x ih =>
    simp only [List.map_append, List.map_cons, List.map_nil, List.pairwise_append,
      List.mem_map, List.mem_singleton, forall_exists_index, and_imp] at h
    obtain ⟨hl, _, hx⟩ := h
    rw [insertionSort_append_newest l x, ih hl, List.reverse_append]
    · rfl
    · intro y hy
      exact hx _ y hy rfl _ rfl

theorem isSqliteInteger_iff (x : Int) :
    isSqliteInteger x = true ↔ -(2 : Int) ^ 63 < x ∧ x < (2 : Int) ^ 63 := by
  simp [isSqliteInteger]

theorem excessBits_small (fuel n : Nat) (h : n < 2 ^ 53) : excessBits fuel n = 0 := by
  cases fuel with
  | zero => rfl
  | succ k => rw [excessBits, if_pos h]

theorem roundNat_small (n : Nat) (h : n < 2 ^ 53) : roundNat n = n := by
  simp [roundNat, excessBits_small n n h, Nat.mod_one]

/-- An integer of magnitude below 2^53 is a double. -/
theorem toDouble_small (x : Int) (h1 : -(2 : Int) ^ 53 < x) (h2 : x < (2 : Int) ^ 53) :
    toDouble x = x := by
  unfold toDouble
  split
  · rw [roundNat_small]
    · omega
    · omega
  · rw [roundNat_small]
    · omega
    · omega

theorem excessBits_large (fuel n : Nat) (hf : n ≤ fuel) (h : 2 ^ 53 ≤ n) :
    1 ≤ excessBits fuel n ∧ 2 ^ 52 ≤ n / 2 ^ excessBits fuel n := by
  induction fuel generalizing n with
  | zero => omega
  | succ k ih =>
    have hn : ¬ n < 2 ^ 53 := by omega
    have hd : n / 2 ^ (excessBits k (n / 2) + 1) = n / 2 / 2 ^ excessBits k (n / 2) := by
      rw [Nat.pow_succ, Nat.mul_comm, Nat.div_div_eq_div_mul]
    rw [excessBits, if_neg hn, hd]
    refine ⟨by omega, ?_⟩
    by_cases h2 : n / 2 < 2 ^ 53
    · rw [excessBits_small k (n / 2) h2]
      simp only [Nat.pow_zero, Nat.div_one]
      omega
    · exact (ih (n / 2) (by omega) (by omega)).2

theorem roundNat_cases (n : Nat) :
    ∃ m, n / 2 ^ excessBits n n ≤ m ∧
      (roundNat n = 2 ^ 1024 ∨ roundNat n = m * 2 ^ excessBits n n) := by
  unfold roundNat
  simp only []
  refine ⟨_, ?_, ite_eq_or_eq _ _ _⟩
  split <;> omega

/-- A number of 2^53 or more is rounded to a double of 2^53 or more. -/
theorem roundNat_large (n : Nat) (h : 2 ^ 53 ≤ n) : 2 ^ 53 ≤ roundNat n := by
  obtain ⟨he, hq⟩ := excessBits_large n n (le_refl n) h
  obtain ⟨m, hm, hr | hr⟩ := roundNat_cases n
  · have hpow : ∀ a b : Nat, a ≤ b → 2 ^ a ≤ 2 ^ b :=
      fun a b hab => Nat.pow_le_pow_right (by norm_num) hab
    rw [hr]
    exact hpow 53 1024 (by norm_num)
  · rw [hr]
    have h2 : 2 ^ 1 ≤ 2 ^ excessBits n n := Nat.pow_le_pow_right (by norm_num) he
    calc 2 ^ 53 = 2 ^ 52 * 2 ^ 1 := by norm_num
      _ ≤ (n / 2 ^ excessBits n n) * 2 ^ excessBits n n := Nat.mul_le_mul hq h2
      _ ≤ m * 2 ^ excessBits n n := Nat.mul_le_mul_right _ hm

/-- Rounding to a double does not go below a natural number under 2^53 that the exact value
reaches. -/
theorem le_toDouble (x y : Int) (hy : y < 2 ^ 53) (hxy : y ≤ x) (h0 : 0 ≤ y) :
    y ≤ toDouble x := by
  by_cases hx : x < 2 ^ 53
  · rw [toDouble_small x (by omega) hx]
    exact hxy
  · unfold toDouble
    rw [if_neg (by omega)]
    have := roundNat_large x.toNat (by omega)
    omega

theorem pageOffset_one (limit : Int) : pageOffset 1 limit = 0 := by
  have h0 : toDouble 0 = 0 := by decide
  simp [pageOffset, h0]

/-- Below 2^53 the offset is the exact product. -/
theorem pageOffset_exact (page limit : Int) (h1 : 0 ≤ page - 1) (h2 : 1 ≤ limit)
    (h3 : (page - 1) * limit < 2 ^ 53) : pageOffset page limit = (page - 1) * limit := by
  have h4 : page - 1 ≤ (page - 1) * limit := le_mul_of_one_le_right h1 h2
  unfold pageOffset
  rw [toDouble_small (page - 1) (by omega) (by omega)]
  exact toDouble_small _ (by omega) h3

theorem listPage_of_fits (page limit : Int) (search : String) (db : Db)
    (h1 : isSqliteInteger limit = true) (h2 : isSqliteInteger (pageOffset page limit) = true) :
    listPage page limit search db
      = (⟨200, .brandList (selectQuery search limit (pageOffset page limit) db)
            (countQuery search db) page (ceilDiv (countQuery search db) limit)
            (decide (page < ceilDiv (countQuery search db) limit)) (decide (page > 1))⟩, db) := by
  simp [listPage, h1, h2]

theorem limitOffset_all (limit : Int) (rows : List BrandRow)
    (h : (rows.length : Int) ≤ limit) : limitOffset limit 0 rows = rows := by
  have h0 : ¬ limit < 0 := by omega
  have hl : rows.length ≤ limit.toNat := by omega
  simp [limitOffset, h0, List.take_of_length_le hl]

theorem parseInt_one : parseInt (some "1") = some 1 := by decide

/-- C9, amended. After any run of N successful brand creations on an empty brands table,
`GET /?page=1&limit=N` reports `total = N` and returns all N created brands, each once,
ordered by their stored creation second, descending: a brand created in a later second
comes before every brand created in an earlier second. When every creation falls in a
later second than the one before it, the array is the created brands newest first. (N is
below 2^63, the bound of a `LIMIT` and of the rowids of a table.) -/
theorem list_after_creates (E : Env) (maxYear : Int) (cs : List (Nat × BrandBody)) (db0 : Db)
    (limitStr : String) (hempty : db0.brands = [])
    (hok : ∀ r ∈ (runCreates E maxYear cs db0).1, r.status = 201)
    (hlim : parseInt (some limitStr) = some (cs.length : Int))
    (hN : (cs.length : Int) < 2 ^ 63) :
    ∃ (rows : List BrandRow) (totalPages : Int) (hasNext : Bool),
      (getBrands ⟨some "1", some limitStr, none⟩ (runCreates E maxYear cs db0).2).1
        = ⟨200, .brandList rows cs.length 1 totalPages hasNext false⟩ ∧
      rows.Perm (createdBrands (runCreates E maxYear cs db0).1) ∧
      (createdBrands (runCreates E maxYear cs db0).1).map (fun b => b.created_at)
        = cs.map (fun c => c.1) ∧
      rows.Pairwise (fun a b => b.created_at ≤ a.created_at) ∧
      ((cs.map (fun c => c.1)).Pairwise (· < ·) →
        rows = (createdBrands (runCreates E maxYear cs db0).1).reverse) := by
  obtain ⟨hb, ht⟩ := runCreates_brands E maxYear cs db0 hok
  rw [hempty, List.nil_append] at hb
  have hlen : (createdBrands (runCreates E maxYear cs db0).1).length = cs.length := by
    have := congrArg List.length ht
    simpa using this
  have hsel : selectQuery "" (jsOr (some (cs.length : Int)) 10) 0 (runCreates E maxYear cs db0).2
      = orderByCreatedAtDesc (createdBrands (runCreates E maxYear cs db0).1) := by
    simp only [selectQuery, ne_eq, not_true_eq_false, if_false, hb]
    apply limitOffset_all
    rw [(orderByCreatedAtDesc_perm _).length_eq, hlen]
    show (cs.length : Int) ≤ if (cs.length : Int) = 0 then 10 else (cs.length : Int)
    split_ifs <;> omega
  refine ⟨orderByCreatedAtDesc (createdBrands (runCreates E maxYear cs db0).1),
    ceilDiv cs.length (jsOr (some (cs.length : Int)) 10),
    decide (1 < ceilDiv cs.length (jsOr (some (cs.length : Int)) 10)), ?_,
    orderByCreatedAtDesc_perm _, ht, orderByCreatedAtDesc_sorted _, ?_⟩
  · have hfit : isSqliteInteger (jsOr (some (cs.length : Int)) 10) = true := by
      rw [isSqliteInteger_iff]
      show -(2 : Int) ^ 63 < (if (cs.length : Int) = 0 then 10 else (cs.length : Int)) ∧
        (if (cs.length : Int) = 0 then 10 else (cs.length : Int)) < (2 : Int) ^ 63
      split_ifs <;> constructor <;> omega
    have h1 : jsOr (some 1) 1 = 1 := rfl
    simp only [getBrands, parseInt_one, hlim, Option.getD_none, h1]
    rw [listPage_of_fits _ _ _ _ hfit (by rw [pageOffset_one]; decide)]
    simp only [pageOffset_one, hsel, countQuery, hb, hlen, ne_eq, not_true_eq_false,
      if_false, gt_iff_lt, lt_self_iff_false, decide_False]
  · intro hinc
    apply orderByCreatedAtDesc_increasing
    rw [ht]
    exact hinc

/-- Witness of C9 amended: two creations in consecutive seconds, then `page=1&limit=2`. -/
theorem list_after_creates_witness :
    (emptyDb.brands = [] ∧
      (∀ r ∈ (runCreates refEnv 2026 [(50, nameOnly "First"), (51, nameOnly "Second")]
          emptyDb).1, r.status = 201) ∧
      parseInt (some "2")
        = some (([(50, nameOnly "First"), (51, nameOnly "Second")] :
            List (Nat × BrandBody)).length : Int) ∧
      ((([(50, nameOnly "First"), (51, nameOnly "Second")] :
            List (Nat × BrandBody)).length : Int) < 2 ^ 63) ∧
      (([(50, nameOnly "First"), (51, nameOnly "Second")] :
            List (Nat × BrandBody)).map (fun c => c.1)).Pairwise (· < ·)) ∧
    ∃ (rows : List BrandRow) (totalPages : Int) (hasNext : Bool),
      (getBrands ⟨some "1", some "2", none⟩
          (runCreates refEnv 2026 [(50, nameOnly "First"), (51, nameOnly "Second")]
            emptyDb).2).1
        = ⟨200, .brandList rows
            ([(50, nameOnly "First"), (51, nameOnly "Second")] : List (Nat × BrandBody)).length
            1 totalPages hasNext false⟩ ∧
      rows.Perm (createdBrands
        (runCreates refEnv 2026 [(50, nameOnly "First"), (51, nameOnly "Second")] emptyDb).1) ∧
      (createdBrands
        (runCreates refEnv 2026 [(50, nameOnly "First"), (51, nameOnly "Second")]
          emptyDb).1).map (fun b => b.created_at)
        = ([(50, nameOnly "First"), (51, nameOnly "Second")] :
            List (Nat × BrandBody)).map (fun c => c.1) ∧
      rows.Pairwise (fun a b => b.created_at ≤ a.created_at) ∧
      rows = (createdBrands
          (runCreates refEnv 2026 [(50, nameOnly "First"), (51, nameOnly "Second")]
            emptyDb).1).reverse := by
  refine ⟨⟨rfl, by decide, by decide, by decide, by decide⟩, ?_⟩
  obtain ⟨rows, tp, hn, h1, h2, h3, h4, h5⟩ :=
    list_after_creates refEnv 2026 [(50, nameOnly "First"), (51, nameOnly "Second")] emptyDb "2"
      rfl (by decide) (by decide) (by decide)
  exact ⟨rows, tp, hn, h1, h2, h3, h4, h5 (by decide)⟩

/-! ## Pagination -/

theorem selects_of_empty (r : BrandRow) : selects "" r = true := by
  simp [selects]

theorem filter_selects (search : String) (l : List BrandRow) :
    l.filter (selects search) = if search = "" then l else l.filter (whereLike search) := by
  by_cases h : search = ""
  · subst h
    simp only [if_true]
    exact List.filter_eq_self.2 (fun r _ => selects_of_empty r)
  · have : selects search = whereLike search := by
      funext r
      simp [selects, h]
    simp [h, this]

theorem countQuery_eq (search : String) (db : Db) :
    countQuery search db = (searchResult search db).length := by
  rw [searchResult, (orderByCreatedAtDesc_perm _).length_eq, filter_selects]
  by_cases h : search = "" <;> simp [countQuery, h]

theorem selectQuery_eq (search : String) (limit offset : Int) (db : Db) :
    selectQuery search limit offset db = limitOffset limit offset (searchResult search db) := by
  rw [searchResult, filter_selects]
  by_cases h : search = "" <;> simp [selectQuery, h]

theorem flatten_chunks (k : Nat) (n : Nat) (l : List BrandRow) (h : l.length ≤ n * k) :
    ((List.range n).map (fun i => (l.drop (i * k)).take k)).flatten = l := by
  induction n generalizing l with
  | zero =>
    have : l = [] := List.length_eq_zero.1 (by omega)
    simp [this]
  | succ m ih =>
    have hd : (l.drop k).length ≤ m * k := by
      rw [List.length_drop]
      have : (m + 1) * k = m * k + k := by ring
      omega
    have ih' := ih (l.drop k) hd
    rw [List.range_succ_eq_map, List.map_cons, List.map_map, List.flatten_cons]
    have hf : ((fun i => (l.drop (i * k)).take k) ∘ Nat.succ)
        = (fun i => ((l.drop k).drop (i * k)).take k) := by
      funext i
      simp only [Function.comp, List.drop_drop]
      have : (i + 1) * k = k + i * k := by ring
      rw [Nat.succ_eq_add_one, this]
    rw [hf, ih']
    simp

theorem ceilDiv_bounds (total : Nat) (limit : Int) (hl : 1 ≤ limit) :
    0 ≤ ceilDiv total limit ∧ (total : Int) ≤ ceilDiv total limit * limit ∧
    ceilDiv total limit * limit < total + limit := by
  have hpos : (0 : Int) < limit := by omega
  have hne : limit ≠ 0 := by omega
  unfold ceilDiv
  rw [Int.fdiv_eq_ediv _ (by omega : (0 : Int) ≤ limit)]
  have h1 := Int.ediv_mul_le (-(total : Int)) hne
  have h2 := Int.lt_ediv_add_one_mul_self (-(total : Int)) hpos
  generalize -(total : Int) / limit = q at *
  have h3 : q ≤ 0 := by
    by_contra hc
    have hq : 0 < q := by omega
    have := mul_pos hq hpos
    omega
  have e1 : -q * limit = -(q * limit) := by ring
  have e2 : (q + 1) * limit = q * limit + limit := by ring
  rw [e1]
  rw [e2] at h2
  generalize q * limit = m at *
  refine ⟨by omega, by omega, by omega⟩

/-! ## The `LIKE` filter -/

theorem anyTail_iff (f : List Char → Bool) (t : List Char) :
    anyTail f t = true ↔ ∃ pre post, t = pre ++ post ∧ f post = true := by
  induction t with
  | nil =>
    simp only [anyTail]
    constructor
    · intro h
      exact ⟨[], [], rfl, h⟩
    · rintro ⟨pre, post, h, hf⟩
      have hp : post = [] := (List.append_eq_nil.1 h.symm).2
      rw [hp] at hf
      exact hf
  | cons c cs ih =>
    simp only [anyTail, Bool.or_eq_true, ih]
    constructor
    · rintro (h | ⟨pre, post, h, hf⟩)
      · exact ⟨[], c :: cs, rfl, h⟩
      · exact ⟨c :: pre, post, by rw [h]; rfl, hf⟩
    · rintro ⟨pre, post, h, hf⟩
      cases pre with
      | nil =>
        left
        rw [List.nil_append] at h
        rw [h]
        exact hf
      | cons a pre =>
        right
        rw [List.cons_append, List.cons.injEq] at h
        exact ⟨pre, post, h.2, hf⟩

theorem patternCompare_percent (ps t : List Char) :
    patternCompare ('%' :: ps) t = anyTail (patternCompare ps) t := by
  simp [patternCompare]

theorem patternCompare_cons_nil (p : Char) (ps : List Char) (hp : p ≠ '%') :
    patternCompare (p :: ps) [] = false := by
  rw [patternCompare]; simp [hp]

theorem patternCompare_cons_cons (p : Char) (ps : List Char) (c : Char) (cs : List Char)
    (hp : p ≠ '%') (hq : p ≠ '_') :
    patternCompare (p :: ps) (c :: cs)
      = (decide (p.toLower = c.toLower) && patternCompare ps cs) := by
  rw [patternCompare]; simp [hp, hq]

theorem patternCompare_term (s : List Char) (h1 : '%' ∉ s) (h2 : '_' ∉ s) (t : List Char) :
    patternCompare (s ++ ['%']) t = true ↔
      ∃ mid post, t = mid ++ post ∧ mid.map Char.toLower = s.map Char.toLower := by
  induction s generalizing t with
  | nil =>
    rw [List.nil_append, patternCompare_percent, anyTail_iff]
    constructor
    · intro _
      exact ⟨[], t, rfl, rfl⟩
    · intro _
      exact ⟨t, [], by simp, by simp [patternCompare]⟩
  | cons c s ih =>
    have hc1 : c ≠ '%' := fun e => h1 (by simp [e])
    have hc2 : c ≠ '_' := fun e => h2 (by simp [e])
    have ih' := ih (fun m => h1 (List.mem_cons_of_mem _ m)) (fun m => h2 (List.mem_cons_of_mem _ m))
    cases t with
    | nil =>
      rw [List.cons_append, patternCompare_cons_nil _ _ hc1]
      constructor
      · intro h
        cases h
      · rintro ⟨mid, post, h, hm⟩
        have hmid : mid = [] := (List.append_eq_nil.1 h.symm).1
        rw [hmid] at hm
        simp at hm
    | cons d t =>
      rw [List.cons_append, patternCompare_cons_cons _ _ _ _ hc1 hc2, Bool.and_eq_true,
        decide_eq_true_eq, ih' t]
      constructor
      · rintro ⟨hcd, mid, post, ht, hm⟩
        exact ⟨d :: mid, post, by rw [ht]; rfl, by simp [hm, hcd]⟩
      · rintro ⟨mid, post, ht, hm⟩
        cases mid with
        | nil => simp at hm
        | cons a mid =>
          rw [List.cons_append, List.cons.injEq] at ht
          simp only [List.map_cons, List.cons.injEq] at hm
          exact ⟨by rw [ht.1, hm.1], mid, post, ht.2, hm.2⟩

theorem cString_of_no_nul (l : List Char) (h : Char.ofNat 0 ∉ l) : cString l = l := by
  unfold cString
  rw [List.takeWhile_eq_self_iff]
  intro c hc
  have : c ≠ Char.ofNat 0 := fun e => h (e ▸ hc)
  simp [this]

theorem likeMatch_pattern (search : String) (h0 : Char.ofNat 0 ∉ search.data)
    (h1 : '%' ∉ search.data) (h2 : '_' ∉ search.data) (t : List Char) :
    likeMatch (likePattern search) t = true
      ↔ containsTermNoCase search.data (cString t) := by
  have hp : cString (likePattern search) = likePattern search := by
    apply cString_of_no_nul
    intro hm
    simp only [likePattern, List.mem_cons, List.mem_append, List.mem_singleton] at hm
    rcases hm with hm | hm | hm
    · revert hm; decide
    · exact h0 hm
    · revert hm; decide
  rw [likeMatch, hp]
  generalize cString t = t'
  rw [likePattern, patternCompare_percent, anyTail_iff]
  constructor
  · rintro ⟨pre, rest, ht, hm⟩
    obtain ⟨mid, post, hr, hmid⟩ := (patternCompare_term _ h1 h2 rest).1 hm
    exact ⟨pre, mid, post, by rw [ht, hr, List.append_assoc], hmid⟩
  · rintro ⟨pre, mid, post, ht, hmid⟩
    exact ⟨pre, mid ++ post, by rw [ht, List.append_assoc],
      (patternCompare_term _ h1 h2 _).2 ⟨mid, post, rfl, hmid⟩⟩

theorem selects_iff_rowContains (search : String) (h0 : Char.ofNat 0 ∉ search.data)
    (h1 : '%' ∉ search.data) (h2 : '_' ∉ search.data) (r : BrandRow) :
    selects search r = true ↔ rowContains search r := by
  have hw : whereLike search r = true ↔ rowContains search r := by
    unfold whereLike rowContains
    rw [Bool.or_eq_true, likeMatch_pattern search h0 h1 h2]
    cases hd : r.description with
    | none => simp
    | some d => simp [likeMatch_pattern search h0 h1 h2]
  unfold selects
  rw [Bool.or_eq_true, hw]
  constructor
  · rintro (h | h)
    · left
      simp only [decide_eq_true_eq] at h
      subst h
      exact ⟨[], [], cString r.name.data, rfl, rfl⟩
    · exact h
  · intro h
    exact Or.inr h

theorem not_containsTerm_single {c : Char} {t : List Char} (h : c ∉ t) :
    ¬ containsTerm [c] t := by
  rintro ⟨pre, post, ht⟩
  apply h
  rw [ht]
  simp

theorem limitOffset_length_le (limit offset : Int) (rows : List BrandRow) (hl : 0 ≤ limit) :
    ((limitOffset limit offset rows).length : Int) ≤ limit := by
  have h0 : ¬ limit < 0 := by omega
  simp only [limitOffset, h0, if_false, List.length_take]
  omega

theorem listPage_brands (page limit : Int) (search : String) (db : Db)
    (h1 : isSqliteInteger limit = true) (h2 : isSqliteInteger (pageOffset page limit) = true) :
    brandsOf (listPage page limit search db).1
      = limitOffset limit (pageOffset page limit) (searchResult search db) := by
  rw [listPage_of_fits _ _ _ _ h1 h2]
  simp [brandsOf, selectQuery_eq]

theorem listPage_brands_length_le (page limit : Int) (search : String) (db : Db)
    (hl : 0 ≤ limit) : ((brandsOf (listPage page limit search db).1).length : Int) ≤ limit := by
  by_cases h : (isSqliteInteger limit && isSqliteInteger (pageOffset page limit)) = true
  · rw [Bool.and_eq_true] at h
    rw [listPage_brands _ _ _ _ h.1 h.2]
    exact limitOffset_length_le _ _ _ hl
  · simp only [listPage, h, brandsOf, List.length_nil]
    exact_mod_cast hl

/-- Counterexample to C10 as stated. On the seeded table the search `_` returns all three
brands, although no name and no description contains an underscore (`_` is a `LIKE`
wildcard); and the search `a` returns `Apple`, whose name and description contain no `a`
(`LIKE` ignores the case of ASCII letters). -/
theorem list_search_not_containment :
    ((getBrands ⟨some "1", some "10", some "_"⟩ refDb).1
        = ⟨200, .brandList refDb.brands 3 1 1 false false⟩ ∧
      ∀ r ∈ refDb.brands, ¬ containsTerm ['_'] r.name.data ∧
        ∀ d ∈ r.description, ¬ containsTerm ['_'] d.data) ∧
    (∃ r ∈ brandsOf (getBrands ⟨some "1", some "10", some "a"⟩ refDb).1,
      r.name = "Apple" ∧ ¬ containsTerm ['a'] r.name.data ∧
        ∀ d ∈ r.description, ¬ containsTerm ['a'] d.data) := by
  have h1 : ∀ r ∈ refDb.brands, '_' ∉ r.name.data ∧ ∀ d ∈ r.description, '_' ∉ d.data := by
    decide
  have h2 : ∃ r ∈ brandsOf (getBrands ⟨some "1", some "10", some "a"⟩ refDb).1,
      r.name = "Apple" ∧ 'a' ∉ r.name.data ∧ ∀ d ∈ r.description, 'a' ∉ d.data := by
    decide
  refine ⟨⟨by decide, ?_⟩, ?_⟩
  · intro r hr
    exact ⟨not_containsTerm_single (h1 r hr).1,
      fun d hd => not_containsTerm_single ((h1 r hr).2 d hd)⟩
  · obtain ⟨r, hr, hn, ha, hd⟩ := h2
    exact ⟨r, hr, hn, not_containsTerm_single ha,
      fun d hdd => not_containsTerm_single (hd d hdd)⟩

/-- C10, amended. For every brands table of fewer than 2^53 rows, every search term and
every positive page size below 2^63 (SQLite's integer bound), the count and the page
selection of `GET /` use the same row filter (`selects`: no filter for the empty term, else
`name LIKE %term% OR description LIKE %term%`) and the pages partition the result: `total`
is the number of selected rows, `totalPages` is `ceil(total / pageSize)`, the `brands`
arrays of pages 1..totalPages concatenated are the selected rows, each once, in list order,
and every page holds at most `pageSize` rows. For a term without `%`, `_` and U+0000, the
selected rows are those whose name or description, read up to its first U+0000, contains
the term, the case of ASCII letters ignored. -/
theorem list_pages_partition (db : Db) (search : String) (limit : Int) (hl : 1 ≤ limit)
    (hlim : limit < 2 ^ 63) (hrows : (db.brands.length : Int) < 2 ^ 53) :
    (∀ (q : ListQuery) (page : Int), page ≠ 0 → parseInt q.page = some page →
        parseInt q.limit = some limit → q.search = some search →
        getBrands q db = listPage page limit search db) ∧
    (∀ page : Int, isSqliteInteger (pageOffset page limit) = true →
      (listPage page limit search db).1
        = ⟨200, .brandList (limitOffset limit (pageOffset page limit) (searchResult search db))
            (searchResult search db).length page
            (ceilDiv (searchResult search db).length limit)
            (decide (page < ceilDiv (searchResult search db).length limit))
            (decide (page > 1))⟩) ∧
    (∀ i : Nat, (i : Int) < ceilDiv (searchResult search db).length limit →
      pageOffset ((i : Int) + 1) limit = (i : Int) * limit) ∧
    ((List.range (ceilDiv (searchResult search db).length limit).toNat).map
        (fun i : Nat => brandsOf (listPage ((i : Int) + 1) limit search db).1)).flatten
      = searchResult search db ∧
    (searchResult search db).Perm (db.brands.filter (selects search)) ∧
    (∀ page : Int, ((brandsOf (listPage page limit search db).1).length : Int) ≤ limit) ∧
    (((searchResult search db).length : Int)
        ≤ ceilDiv (searchResult search db).length limit * limit ∧
      ceilDiv (searchResult search db).length limit * limit
        < (searchResult search db).length + limit) ∧
    (Char.ofNat 0 ∉ search.data → '%' ∉ search.data → '_' ∉ search.data →
      ∀ r, selects search r = true ↔ rowContains search r) := by
  obtain ⟨hc0, hc1, hc2⟩ := ceilDiv_bounds (searchResult search db).length limit hl
  have hfit : isSqliteInteger limit = true := by
    rw [isSqliteInteger_iff]; constructor <;> omega
  have htot : (searchResult search db).length ≤ db.brands.length := by
    rw [searchResult, (orderByCreatedAtDesc_perm _).length_eq]
    exact List.length_filter_le _ _
  have hoffset : ∀ i : Nat, (i : Int) < ceilDiv (searchResult search db).length limit →
      pageOffset ((i : Int) + 1) limit = (i : Int) * limit ∧
      (i : Int) * limit < (db.brands.length : Int) := by
    intro i hi
    have h1 : ((i : Int) + 1) * limit ≤ ceilDiv (searchResult search db).length limit * limit :=
      mul_le_mul_of_nonneg_right (by omega) (by omega)
    have h2 : ((i : Int) + 1) * limit = (i : Int) * limit + limit := by ring
    have h3 : (i : Int) * limit < (db.brands.length : Int) := by
      have : ((searchResult search db).length : Int) ≤ (db.brands.length : Int) := by
        exact_mod_cast htot
      omega
    have h4 : (i : Int) + 1 - 1 = (i : Int) := by ring
    refine ⟨?_, h3⟩
    rw [pageOffset_exact _ _ (by omega) hl (by rw [h4]; omega), h4]
  refine ⟨?_, ?_, fun i hi => (hoffset i hi).1, ?_, orderByCreatedAtDesc_perm _, ?_,
    ⟨hc1, hc2⟩, ?_⟩
  · intro q page hp hqp hql hqs
    have hlim : limit ≠ 0 := by omega
    simp [getBrands, hqp, hql, hqs, jsOr, hp, hlim]
  · intro page hoff
    rw [listPage_of_fits _ _ _ _ hfit hoff]
    simp [selectQuery_eq, countQuery_eq]
  · obtain ⟨k, rfl⟩ := Int.eq_ofNat_of_zero_le (by omega : 0 ≤ limit)
    have hn : (((ceilDiv (searchResult search db).length (k : Int)).toNat : Nat) : Int)
        = ceilDiv (searchResult search db).length (k : Int) := Int.toNat_of_nonneg hc0
    have hlen : (searchResult search db).length
        ≤ (ceilDiv (searchResult search db).length (k : Int)).toNat * k := by
      have : ((searchResult search db).length : Int)
          ≤ (((ceilDiv (searchResult search db).length (k : Int)).toNat : Nat) : Int) * (k : Int) := by
        rw [hn]; exact hc1
      exact_mod_cast this
    have hpage : ∀ i ∈ List.range (ceilDiv (searchResult search db).length (k : Int)).toNat,
        brandsOf (listPage ((i : Int) + 1) (k : Int) search db).1
          = ((searchResult search db).drop (i * k)).take k := by
      intro i hi
      rw [List.mem_range] at hi
      have hi' : (i : Int) < ceilDiv (searchResult search db).length (k : Int) := by
        rw [← hn]; exact_mod_cast hi
      obtain ⟨hoff, hlt⟩ := hoffset i hi'
      have hcast : (i : Int) * (k : Int) = ((i * k : Nat) : Int) := by push_cast; ring
      have hofit : isSqliteInteger (pageOffset ((i : Int) + 1) (k : Int)) = true := by
        rw [hoff, isSqliteInteger_iff]
        have h3 : (0 : Int) ≤ (i : Int) * (k : Int) := by
          rw [hcast]; exact Int.ofNat_nonneg _
        constructor <;> omega
      rw [listPage_brands _ _ _ _ hfit hofit]
      have h0 : ¬ ((k : Int) < 0) := by omega
      rw [hoff, hcast]
      simp only [limitOffset, h0, if_false, Int.toNat_ofNat]
    rw [List.map_congr_left hpage]
    exact flatten_chunks k _ _ hlen
  · intro page
    exact listPage_brands_length_le _ _ _ _ (by omega)
  · intro h0 h1 h2 r
    exact selects_iff_rowContains search h0 h1 h2 r

/-- Witness of C10 amended: the seeded table searched for `a`, one brand per page. -/
theorem list_pages_partition_witness :
    ((1 : Int) ≤ 1 ∧ (1 : Int) < 2 ^ 63 ∧ (refDb.brands.length : Int) < 2 ^ 53 ∧
      Char.ofNat 0 ∉ "a".data ∧ '%' ∉ "a".data ∧ '_' ∉ "a".data) ∧
    ((List.range (ceilDiv (searchResult "a" refDb).length 1).toNat).map
        (fun i : Nat => brandsOf (listPage ((i : Int) + 1) 1 "a" refDb).1)).flatten
      = searchResult "a" refDb ∧
    (∀ r, selects "a" r = true ↔ rowContains "a" r) :=
  ⟨⟨by decide, by decide, by decide, by decide, by decide, by decide⟩,
   (list_pages_partition refDb "a" 1 (by decide) (by decide) (by decide)).2.2.2.1,
   (list_pages_partition refDb "a" 1 (by decide) (by decide) (by decide)).2.2.2.2.2.2.2
     (by decide) (by decide) (by decide)⟩

/-! ## Pages out of range and query parameters -/

theorem leadingDigits_no_digit (l : List Char)
    (h : ∀ c ∈ l, ¬ (48 ≤ c.toNat ∧ c.toNat ≤ 57)) : leadingDigits 10 l = [] := by
  cases l with
  | nil => rfl
  | cons c cs =>
    have hc := h c (List.mem_cons_self _ _)
    simp [leadingDigits, digitValue, hc]

/-- A text without a decimal digit is not numeric for `parseInt`. -/
theorem parseInt_no_digit (s : String) (h : ∀ c ∈ s.data, ¬ (48 ≤ c.toNat ∧ c.toNat ≤ 57)) :
    parseInt (some s) = none := by
  have hs0 : ∀ c ∈ s.data.dropWhile isJsWhiteSpace, ¬ (48 ≤ c.toNat ∧ c.toNat ≤ 57) :=
    fun c hc => h c ((List.dropWhile_suffix _).subset hc)
  unfold parseInt
  simp only []
  generalize s.data.dropWhile isJsWhiteSpace = s0 at hs0
  have key : ∀ s1 : List Char, (∀ c ∈ s1, ¬ (48 ≤ c.toNat ∧ c.toNat ≤ 57)) →
      leadingDigits (match s1 with | '0' :: 'x' :: _ => 16 | '0' :: 'X' :: _ => 16 | _ => 10)
        (match s1 with | '0' :: 'x' :: r => r | '0' :: 'X' :: r => r | _ => s1) = [] := by
    intro s1 h1
    split
    · exact absurd (by decide) (h1 '0' (by simp))
    · exact absurd (by decide) (h1 '0' (by simp))
    · exact leadingDigits_no_digit _ h1
  have hs1 : ∀ c ∈ (match s0 with | '-' :: r => r | '+' :: r => r | _ => s0),
      ¬ (48 ≤ c.toNat ∧ c.toNat ≤ 57) := by
    intro c hc
    split at hc
    · exact hs0 c (List.mem_cons_of_mem _ hc)
    · exact hs0 c (List.mem_cons_of_mem _ hc)
    · exact hs0 c hc
  rw [key _ hs1]
  rfl

/-- Counterexample to C11 as stated. On the seeded table `GET /?limit=-5` reports page 1 of
0 pages, so the page is beyond `totalPages`, yet the `brands` array holds all three rows
(a negative `LIMIT` is no limit); and a page of thirty-one digits is beyond `totalPages`
and is answered 500, because SQLite refuses the offset. -/
theorem list_beyond_last_page_fails :
    ((getBrands ⟨none, some "-5", none⟩ refDb).1
        = ⟨200, .brandList refDb.brands 3 1 0 false false⟩ ∧ refDb.brands.length = 3) ∧
    (getBrands ⟨some "1000000000000000000000000000000", none, none⟩ refDb).1
        = ⟨500, .error "Ошибка получения данных"⟩ := by
  decide

/-- C11, amended. For every brands table (of fewer than 2^53 rows) and every list request
with a positive page size whose page is greater than `totalPages`, the page size and the
offset `(page - 1) * limit`, as JavaScript computes it in doubles, being below 2^63 (SQLite's
integer bound), the response is 200 with an empty `brands` array and `hasNext == false`; the
database is untouched. -/
theorem list_beyond_last_page (q : ListQuery) (db : Db) (page limit : Int)
    (hpage : jsOr (parseInt q.page) 1 = page) (hlimit : jsOr (parseInt q.limit) 10 = limit)
    (hl : 1 ≤ limit) (hlim : limit < 2 ^ 63) (hoff : pageOffset page limit < 2 ^ 63)
    (hrows : (db.brands.length : Int) < 2 ^ 53)
    (hp : ceilDiv (countQuery (q.search.getD "") db) limit < page) :
    getBrands q db
      = (⟨200, .brandList [] (countQuery (q.search.getD "") db) page
            (ceilDiv (countQuery (q.search.getD "") db) limit) false (decide (page > 1))⟩,
         db) := by
  obtain ⟨hc0, hc1, hc2⟩ := ceilDiv_bounds (countQuery (q.search.getD "") db) limit hl
  have htot : (countQuery (q.search.getD "") db : Int) < 2 ^ 53 := by
    have h1 : countQuery (q.search.getD "") db ≤ db.brands.length := by
      rw [countQuery_eq, searchResult, (orderByCreatedAtDesc_perm _).length_eq]
      exact List.length_filter_le _ _
    have h2 : (countQuery (q.search.getD "") db : Int) ≤ (db.brands.length : Int) := by
      exact_mod_cast h1
    omega
  have hpages : ceilDiv (countQuery (q.search.getD "") db) limit
      ≤ (countQuery (q.search.getD "") db : Int) := by
    have h1 : ceilDiv (countQuery (q.search.getD "") db) limit
        ≤ ceilDiv (countQuery (q.search.getD "") db) limit * limit :=
      le_mul_of_one_le_right hc0 hl
    have h2 : (ceilDiv (countQuery (q.search.getD "") db) limit - 1) * limit
        = ceilDiv (countQuery (q.search.getD "") db) limit * limit - limit := by ring
    by_contra hc
    have h3 : (countQuery (q.search.getD "") db : Int) + 1
        ≤ ceilDiv (countQuery (q.search.getD "") db) limit := by omega
    have h4 : ((countQuery (q.search.getD "") db : Int) + 1) * limit
        ≤ ceilDiv (countQuery (q.search.getD "") db) limit * limit :=
      mul_le_mul_of_nonneg_right h3 (by omega)
    have h5 : ((countQuery (q.search.getD "") db : Int) + 1) * limit
        = (countQuery (q.search.getD "") db : Int) * limit + limit := by ring
    have h6 : (countQuery (q.search.getD "") db : Int)
        ≤ (countQuery (q.search.getD "") db : Int) * limit :=
      le_mul_of_one_le_right (Int.ofNat_nonneg _) hl
    omega
  have hprev : ceilDiv (countQuery (q.search.getD "") db) limit ≤ toDouble (page - 1) :=
    le_toDouble _ _ (by omega) (by omega) hc0
  have hmul : ceilDiv (countQuery (q.search.getD "") db) limit * limit
      ≤ toDouble (page - 1) * limit :=
    mul_le_mul_of_nonneg_right hprev (by omega)
  have hge : (countQuery (q.search.getD "") db : Int) ≤ pageOffset page limit :=
    le_toDouble _ _ htot (by omega) (Int.ofNat_nonneg _)
  have hfit1 : isSqliteInteger limit = true := by
    rw [isSqliteInteger_iff]; constructor <;> omega
  have hfit2 : isSqliteInteger (pageOffset page limit) = true := by
    rw [isSqliteInteger_iff]
    have : (0 : Int) ≤ (countQuery (q.search.getD "") db : Int) := Int.ofNat_nonneg _
    constructor <;> omega
  have hdrop : limitOffset limit (pageOffset page limit) (searchResult (q.search.getD "") db)
      = [] := by
    have hlen : (searchResult (q.search.getD "") db).length
        ≤ (pageOffset page limit).toNat := by
      rw [← countQuery_eq]
      omega
    simp [limitOffset, List.drop_eq_nil_of_le hlen]
  have hnext : decide (page < ceilDiv (countQuery (q.search.getD "") db) limit) = false := by
    rw [decide_eq_false_iff_not]; omega
  rw [getBrands, hpage, hlimit, listPage_of_fits _ _ _ _ hfit1 hfit2, selectQuery_eq, hdrop,
    hnext]

/-- Witness of C11 amended: page 2 of the seeded table with the default page size. -/
theorem list_beyond_last_page_witness :
    (jsOr (parseInt (some "2")) 1 = 2 ∧ jsOr (parseInt none) 10 = 10 ∧ (1 : Int) ≤ 10 ∧
      (10 : Int) < 2 ^ 63 ∧ pageOffset 2 10 < 2 ^ 63 ∧ (refDb.brands.length : Int) < 2 ^ 53 ∧
      ceilDiv (countQuery ((none : Option String).getD "") refDb) 10 < 2) ∧
    getBrands ⟨some "2", none, none⟩ refDb
      = (⟨200, .brandList [] (countQuery ((none : Option String).getD "") refDb) 2
            (ceilDiv (countQuery ((none : Option String).getD "") refDb) 10) false
            (decide ((2 : Int) > 1))⟩, refDb) :=
  ⟨⟨by decide, by decide, by decide, by decide, by decide, by decide, by decide⟩,
   list_beyond_last_page ⟨some "2", none, none⟩ refDb 2 10 (by decide) (by decide) (by decide)
     (by decide) (by decide) (by decide) (by decide)⟩

/-- Counterexample to C12 as stated. The numeric parameters `page=0` and `limit=0` are not
used with their value: the request is served as page 1 with page size 10; the numeric
parameter `limit=1000000000000000000000000000000` makes the list answer 500; and so does
`limit=9223372036854775807`, which `parseInt` reads as the double 2^63. -/
theorem list_zero_and_huge_parameters :
    (parseInt (some "0") = some 0 ∧
      getBrands ⟨some "0", some "0", none⟩ refDb = listPage 1 10 "" refDb ∧
      (getBrands ⟨some "0", some "0", none⟩ refDb).1
        = ⟨200, .brandList refDb.brands 3 1 1 false false⟩) ∧
    (parseInt (some "1000000000000000000000000000000")
        = some 1000000000000000019884624838656 ∧
      (getBrands ⟨none, some "1000000000000000000000000000000", none⟩ refDb).1
        = ⟨500, .error "Ошибка получения данных"⟩) ∧
    (parseInt (some "9223372036854775807") = some 9223372036854775808 ∧
      (getBrands ⟨none, some "9223372036854775807", none⟩ refDb).1
        = ⟨500, .error "Ошибка получения данных"⟩) := by
  decide

/-- C12, amended. The page used and reported is 1 when the `page` parameter is absent, is
not numeric (`parseInt` gives `NaN`, as it does for the absent parameter and for every text
without a decimal digit) or is zero, and otherwise is the number `parseInt` returns, which
is the double nearest to the integer written; the page size used is 10 when `limit` is
absent, not numeric or zero, and otherwise is the number `parseInt` returns. Whenever the
page size and the offset, as JavaScript computes them, are within SQLite's integer bound
the list answers 200 and reports that page; the database is never touched. -/
theorem list_parameter_defaults (q : ListQuery) (db : Db) :
    ∃ page limit : Int,
      getBrands q db = listPage page limit (q.search.getD "") db ∧
      parseInt none = none ∧
      (∀ s : String, (∀ c ∈ s.data, ¬ (48 ≤ c.toNat ∧ c.toNat ≤ 57)) →
        parseInt (some s) = none) ∧
      ((parseInt q.page = none ∨ parseInt q.page = some 0) → page = 1) ∧
      (∀ n : Int, n ≠ 0 → parseInt q.page = some n → page = n) ∧
      ((parseInt q.limit = none ∨ parseInt q.limit = some 0) → limit = 10) ∧
      (∀ n : Int, n ≠ 0 → parseInt q.limit = some n → limit = n) ∧
      (isSqliteInteger limit = true → isSqliteInteger (pageOffset page limit) = true →
        ∃ brands total totalPages hasNext hasPrev,
          (getBrands q db).1 = ⟨200, .brandList brands total page totalPages hasNext hasPrev⟩) ∧
      (getBrands q db).2 = db := by
  refine ⟨jsOr (parseInt q.page) 1, jsOr (parseInt q.limit) 10, rfl, by decide,
    parseInt_no_digit, ?_, ?_, ?_, ?_, ?_, ?_⟩
  · rintro (h | h) <;> simp [h, jsOr]
  · intro n hn h
    simp [h, jsOr, hn]
  · rintro (h | h) <;> simp [h, jsOr]
  · intro n hn h
    simp [h, jsOr, hn]
  · intro h1 h2
    rw [getBrands, listPage_of_fits _ _ _ _ h1 h2]
    exact ⟨_, _, _, _, _, rfl⟩
  · unfold getBrands listPage
    dsimp only
    split <;> rfl

/-- Witness of C12 amended: `page=abc` with `limit=2` on the seeded table. -/
theorem list_parameter_defaults_witness :
    ((∀ c ∈ "abc".data, ¬ (48 ≤ c.toNat ∧ c.toNat ≤ 57)) ∧ parseInt (some "2") = some 2 ∧
      (2 : Int) ≠ 0 ∧ isSqliteInteger 2 = true ∧
      isSqliteInteger (pageOffset 1 2) = true) ∧
    ∃ page limit : Int,
      getBrands ⟨some "abc", some "2", none⟩ refDb = listPage page limit "" refDb ∧
      page = 1 ∧ limit = 2 ∧
      ∃ brands total totalPages hasNext hasPrev,
        (getBrands ⟨some "abc", some "2", none⟩ refDb).1
          = ⟨200, .brandList brands total page totalPages hasNext hasPrev⟩ := by
  refine ⟨⟨by decide, by decide, by decide, by decide, by decide⟩, ?_⟩
  obtain ⟨page, limit, h0, _, hnd, h1, _, _, h4, h5, _⟩ :=
    list_parameter_defaults ⟨some "abc", some "2", none⟩ refDb
  have hp : page = 1 := h1 (Or.inl (hnd "abc" (by decide)))
  have hl : limit = 2 := h4 2 (by decide) (by decide)
  refine ⟨page, limit, h0, hp, hl, h5 ?_ ?_⟩
  · rw [hl]; decide
  · rw [hp, hl]; decide

/-! ## Creating, reading, updating and deleting one brand -/

theorem brandValidators_nil_name {E : Env} {maxYear : Int} {body : BrandBody}
    (h : brandValidators E maxYear body = []) : ∃ name, body.name = some name ∧ name ≠ "" := by
  cases hn : body.name with
  | none => simp [brandValidators, hn, fieldString, notEmpty] at h
  | some name =>
    refine ⟨name, rfl, ?_⟩
    intro he
    subst he
    simp [brandValidators, hn, fieldString, notEmpty] at h

theorem brandValidators_nil_year {E : Env} {maxYear : Int} {body : BrandBody}
    (h : brandValidators E maxYear body = []) :
    (yearValue body.founded_year).map YearInput.int = body.founded_year := by
  cases hy : body.founded_year with
  | none => rfl
  | some v =>
    cases v with
    | int n => rfl
    | notInt raw => simp [brandValidators, hy, optionalCheck, isIntInRange] at h

theorem find?_id_none {l : List BrandRow} {id : Nat} (h : ∀ r ∈ l, r.id ≠ id) :
    l.find? (fun r => decide (r.id = id)) = none := by
  rw [List.find?_eq_none]
  intro r hr
  simp [h r hr]

theorem find?_id_some {l : List BrandRow} {id : Nat} (h : ∃ r ∈ l, r.id = id) :
    ∃ r, l.find? (fun r => decide (r.id = id)) = some r ∧ r ∈ l ∧ r.id = id := by
  cases hf : l.find? (fun r => decide (r.id = id)) with
  | none =>
    obtain ⟨r, hr, hid⟩ := h
    rw [List.find?_eq_none] at hf
    exact absurd hid (by simpa using hf r hr)
  | some r =>
    exact ⟨r, rfl, List.mem_of_find?_eq_some hf, by simpa using List.find?_some hf⟩

/-- A `POST /` with a valid body appends one row with a fresh id and answers 201 with it. -/
theorem createBrand_valid (E : Env) (maxYear : Int) (now : Nat) (body : BrandBody) (db : Db)
    (name : String) (hn : body.name = some name)
    (hv : brandValidators E maxYear body = []) :
    createBrand E maxYear now body db
      = (⟨201, .brand ⟨nextRowid db.brandsSeq (db.brands.map (fun r => r.id)), name,
            body.description, body.logo_url, body.website, yearValue body.founded_year,
            body.country, body.industry, now, now⟩⟩,
         { db with
           brands := db.brands ++ [⟨nextRowid db.brandsSeq (db.brands.map (fun r => r.id)),
             name, body.description, body.logo_url, body.website,
             yearValue body.founded_year, body.country, body.industry, now, now⟩],
           brandsSeq := nextRowid db.brandsSeq (db.brands.map (fun r => r.id)) }) := by
  simp [createBrand, hv, hn, insertBrand]

/-- C13, the code at the failing input. The upper bound of `founded_year` is the year in
which the route was registered: a server started in 2025 answers 400 to a request made in
2026 (second 1780000000) for the year 2026, which lies in [1800, current year]; the same
request is accepted by a server started in 2026. -/
theorem createBrand_year_bound_fixed_at_startup :
    createBrand refEnv 2025 1780000000
        ⟨some "Acme", none, none, none, some (.int 2026), none, none⟩ refDb
      = (⟨400, .validation
            [⟨"founded_year", "Год основания должен быть между 1800 и текущим годом"⟩]⟩,
         refDb) ∧
    (createBrand refEnv 2026 1780000000
        ⟨some "Acme", none, none, none, some (.int 2026), none, none⟩ refDb).1.status = 201 := by
  decide

/-- C14. For every brands table and every valid brand body, `POST /` answers 201 with a
brand whose id, given to `GET /:id`, returns 200 and a brand whose name, description,
logo_url, website, founded_year, country and industry are the submitted values, an omitted
optional field being `null`. -/
theorem create_then_get (E : Env) (maxYear : Int) (now : Nat) (body : BrandBody) (db : Db)
    (hv : brandValidators E maxYear body = []) :
    ∃ created fetched : BrandRow,
      (createBrand E maxYear now body db).1 = ⟨201, .brand created⟩ ∧
      getBrand created.id (createBrand E maxYear now body db).2
        = (⟨200, .brand fetched⟩, (createBrand E maxYear now body db).2) ∧
      some fetched.name = body.name ∧
      fetched.description = body.description ∧
      fetched.logo_url = body.logo_url ∧
      fetched.website = body.website ∧
      fetched.founded_year.map YearInput.int = body.founded_year ∧
      fetched.country = body.country ∧
      fetched.industry = body.industry := by
  obtain ⟨name, hn, _⟩ := brandValidators_nil_name hv
  have hc := createBrand_valid E maxYear now body db name hn hv
  have hnone : db.brands.find?
      (fun r => decide (r.id = nextRowid db.brandsSeq (db.brands.map (fun r => r.id)))) = none := by
    apply find?_id_none
    intro r hr
    have : r.id < nextRowid db.brandsSeq (db.brands.map (fun r => r.id)) :=
      lt_nextRowid (List.mem_map_of_mem (fun r : BrandRow => r.id) hr)
    omega
  refine ⟨⟨nextRowid db.brandsSeq (db.brands.map (fun r => r.id)), name, body.description,
      body.logo_url, body.website, yearValue body.founded_year, body.country, body.industry,
      now, now⟩,
    ⟨nextRowid db.brandsSeq (db.brands.map (fun r => r.id)), name, body.description,
      body.logo_url, body.website, yearValue body.founded_year, body.country, body.industry,
      now, now⟩,
    by rw [hc], ?_, hn.symm, rfl, rfl, rfl, brandValidators_nil_year hv, rfl, rfl⟩
  rw [hc]
  simp [getBrand, List.find?_append, hnone]

/-- Witness of C14: a body with a name, a year and a country on the seeded table. -/
theorem create_then_get_witness :
    brandValidators refEnv 2026
        ⟨some "Acme", none, none, none, some (.int 1999), some "Italy", none⟩ = [] ∧
    ∃ created fetched : BrandRow,
      (createBrand refEnv 2026 7
          ⟨some "Acme", none, none, none, some (.int 1999), some "Italy", none⟩ refDb).1
        = ⟨201, .brand created⟩ ∧
      getBrand created.id (createBrand refEnv 2026 7
          ⟨some "Acme", none, none, none, some (.int 1999), some "Italy", none⟩ refDb).2
        = (⟨200, .brand fetched⟩, (createBrand refEnv 2026 7
          ⟨some "Acme", none, none, none, some (.int 1999), some "Italy", none⟩ refDb).2) ∧
      some fetched.name = some "Acme" ∧
      fetched.description = none ∧
      fetched.logo_url = none ∧
      fetched.website = none ∧
      fetched.founded_year.map YearInput.int = some (.int 1999) ∧
      fetched.country = some "Italy" ∧
      fetched.industry = none :=
  ⟨by decide,
   create_then_get refEnv 2026 7
     ⟨some "Acme", none, none, none, some (.int 1999), some "Italy", none⟩ refDb (by decide)⟩

/-- C15. For every brands table and every id that no row has, `PUT /:id` with a valid body
answers 404 and `DELETE /:id` answers 404, and both return the database as it was. -/
theorem update_delete_missing (E : Env) (maxYear : Int) (now : Nat) (id : Nat)
    (idNumber : Option Int) (body : BrandBody) (db : Db)
    (hv : brandValidators E maxYear body = [])
    (hid : ∀ r ∈ db.brands, r.id ≠ id) :
    updateBrand E maxYear now id idNumber body db = (⟨404, .error "Бренд не найден"⟩, db) ∧
    deleteBrand id db = (⟨404, .error "Бренд не найден"⟩, db) := by
  constructor
  · simp [updateBrand, hv, find?_id_none hid]
  · simp [deleteBrand, find?_id_none hid]

/-- Witness of C15: id 999 on the seeded table. -/
theorem update_delete_missing_witness :
    (brandValidators refEnv 2026 (nameOnly "Acme") = [] ∧ ∀ r ∈ refDb.brands, r.id ≠ 999) ∧
    updateBrand refEnv 2026 7 999 (some 999) (nameOnly "Acme") refDb
      = (⟨404, .error "Бренд не найден"⟩, refDb) ∧
    deleteBrand 999 refDb = (⟨404, .error "Бренд не найден"⟩, refDb) :=
  ⟨⟨by decide, by decide⟩,
   update_delete_missing refEnv 2026 7 999 (some 999) (nameOnly "Acme") refDb (by decide)
     (by decide)⟩

/-- Counterexample to C16 as stated: `PUT /999` with an empty name, on the seeded table,
where no row has id 999, is answered 400 with the validation error, not 404. -/
theorem update_validates_before_lookup :
    (∀ r ∈ refDb.brands, r.id ≠ 999) ∧
    updateBrand refEnv 2026 7 999 (some 999) (nameOnly "") refDb
      = (⟨400, .validation [⟨"name", "Название бренда обязательно"⟩]⟩, refDb) := by
  decide

/-- C16, amended. In `PUT /:id` field validation comes before the existence check: for
every id, in the table or not, a body (its fields strings, the year a number) for which a
validator reports an error is answered 400 with the validation errors, and the database is
returned as it was. -/
theorem update_invalid_body (E : Env) (maxYear : Int) (now : Nat) (id : Nat)
    (idNumber : Option Int) (body : BrandBody) (db : Db)
    (hv : brandValidators E maxYear body ≠ []) :
    updateBrand E maxYear now id idNumber body db
      = (⟨400, .validation (brandValidators E maxYear body)⟩, db) := by
  simp [updateBrand, hv]

/-- Witness of C16 amended: an empty name sent to the existing id 1. -/
theorem update_invalid_body_witness :
    brandValidators refEnv 2026 (nameOnly "") ≠ [] ∧
    updateBrand refEnv 2026 7 1 (some 1) (nameOnly "") refDb
      = (⟨400, .validation (brandValidators refEnv 2026 (nameOnly ""))⟩, refDb) :=
  ⟨by decide, update_invalid_body refEnv 2026 7 1 (some 1) (nameOnly "") refDb (by decide)⟩

theorem updateBrand_valid (E : Env) (maxYear : Int) (now : Nat) (id : Nat)
    (idNumber : Option Int) (body : BrandBody)
    (db : Db) (name : String) (hn : body.name = some name)
    (hv : brandValidators E maxYear body = []) (hex : ∃ r ∈ db.brands, r.id = id) :
    updateBrand E maxYear now id idNumber body db
      = (⟨200, .updated ⟨idNumber, name, body.description, body.logo_url, body.website,
            yearValue body.founded_year, body.country, body.industry, now⟩⟩,
         { db with brands := (updateRows id name body.description body.logo_url body.website
             (yearValue body.founded_year) body.country body.industry now db.brands) }) := by
  obtain ⟨r, hf, _, _⟩ := find?_id_some hex
  simp [updateBrand, hv, hf, hn]

/-- C17. For every brands table, every id of a row in it and every valid body, `PUT /:id`
answers 200 and overwrites the seven mutable fields of each row with that id by the
submitted values, an omitted field becoming `null`; the id and `created_at` of the row stay,
every other row stays as it was, in its place, and the users table is untouched. The
response repeats the submitted values; its `id` is `parseInt` of the path segment, whatever
row the segment selected. -/
theorem update_replaces_fields (E : Env) (maxYear : Int) (now : Nat) (id : Nat)
    (idNumber : Option Int) (body : BrandBody) (db : Db)
    (hv : brandValidators E maxYear body = [])
    (hex : ∃ r ∈ db.brands, r.id = id) :
    ∃ name : String, body.name = some name ∧
      (yearValue body.founded_year).map YearInput.int = body.founded_year ∧
      (updateBrand E maxYear now id idNumber body db).1
        = ⟨200, .updated ⟨idNumber, name, body.description, body.logo_url, body.website,
              yearValue body.founded_year, body.country, body.industry, now⟩⟩ ∧
      (updateBrand E maxYear now id idNumber body db).2.brands.length = db.brands.length ∧
      (∀ (i : Nat) (old : BrandRow), db.brands[i]? = some old →
        (updateBrand E maxYear now id idNumber body db).2.brands[i]?
          = some (if old.id = id then
              ⟨old.id, name, body.description, body.logo_url, body.website,
                yearValue body.founded_year, body.country, body.industry, old.created_at, now⟩
            else old)) ∧
      (updateBrand E maxYear now id idNumber body db).2.users = db.users := by
  obtain ⟨name, hn, _⟩ := brandValidators_nil_name hv
  have hu := updateBrand_valid E maxYear now id idNumber body db name hn hv hex
  refine ⟨name, hn, brandValidators_nil_year hv, by rw [hu], ?_, ?_, by rw [hu]⟩
  · rw [hu]
    simp [updateRows]
  · intro i old hi
    rw [hu]
    simp only [updateRows, List.getElem?_map, hi, Option.map_some']

/-- Witness of C17: the seeded brand 2 replaced by a body with a name and a country, sent to
the path `/0.2e1`, which SQLite reads as 2 and `parseInt` as 0. -/
theorem update_replaces_fields_witness :
    (brandValidators refEnv 2026
        ⟨some "Acme", none, none, none, none, some "Italy", none⟩ = [] ∧
      (∃ r ∈ refDb.brands, r.id = 2) ∧ parseInt (some "0.2e1") = some 0) ∧
    ∃ name : String,
      (⟨some "Acme", none, none, none, none, some "Italy", none⟩ : BrandBody).name = some name ∧
      (yearValue (none : Option YearInput)).map YearInput.int = none ∧
      (updateBrand refEnv 2026 7 2 (parseInt (some "0.2e1"))
          ⟨some "Acme", none, none, none, none, some "Italy", none⟩ refDb).1
        = ⟨200, .updated
            ⟨parseInt (some "0.2e1"), name, none, none, none, yearValue none, some "Italy", none,
              7⟩⟩ ∧
      (updateBrand refEnv 2026 7 2 (parseInt (some "0.2e1"))
          ⟨some "Acme", none, none, none, none, some "Italy", none⟩ refDb).2.brands.length
        = refDb.brands.length ∧
      (∀ (i : Nat) (old : BrandRow), refDb.brands[i]? = some old →
        (updateBrand refEnv 2026 7 2 (parseInt (some "0.2e1"))
            ⟨some "Acme", none, none, none, none, some "Italy", none⟩ refDb).2.brands[i]?
          = some (if old.id = 2 then
              ⟨old.id, name, none, none, none, yearValue none, some "Italy", none,
                old.created_at, 7⟩
            else old)) ∧
      (updateBrand refEnv 2026 7 2 (parseInt (some "0.2e1"))
          ⟨some "Acme", none, none, none, none, some "Italy", none⟩ refDb).2.users
        = refDb.users :=
  ⟨⟨by decide, by decide, by decide⟩,
   update_replaces_fields refEnv 2026 7 2 (parseInt (some "0.2e1"))
     ⟨some "Acme", none, none, none, none, some "Italy", none⟩ refDb (by decide) (by decide)⟩

theorem filter_id_length {l : List BrandRow} {id : Nat}
    (hu : (l.map (fun r => r.id)).Nodup) (hex : ∃ r ∈ l, r.id = id) :
    (l.filter (fun r => !decide (r.id = id))).length + 1 = l.length := by
  induction l with
  | nil =>
    obtain ⟨r, hr, _⟩ := hex
    cases hr
  | cons a t ih =>
    rw [List.map_cons, List.nodup_cons] at hu
    by_cases ha : a.id = id
    · have hall : ∀ r ∈ t, (!decide (r.id = id)) = true := by
        intro r hr
        have : r.id ≠ id := by
          intro e
          apply hu.1
          rw [ha, ← e]
          exact List.mem_map_of_mem (fun r : BrandRow => r.id) hr
        simp [this]
      simp [List.filter_cons, ha, List.filter_eq_self.2 hall]
    · have hex' : ∃ r ∈ t, r.id = id := by
        obtain ⟨r, hr, hid⟩ := hex
        rcases List.mem_cons.1 hr with h | h
        · exact absurd (h ▸ hid) ha
        · exact ⟨r, h, hid⟩
      have := ih hu.2 hex'
      simp [List.filter_cons, ha]
      omega

theorem getBrands_default_total (db : Db) :
    totalOf (getBrands ⟨none, none, none⟩ db).1 = some db.brands.length := by
  have hp : jsOr (parseInt none) 1 = 1 := by decide
  have hl : jsOr (parseInt none) 10 = 10 := by decide
  rw [getBrands, hp, hl, listPage_of_fits _ _ _ _ (by decide) (by decide)]
  simp [totalOf, countQuery]

/-- C18. For every brands table (ids unique, as the primary key makes them) and every id of
a row in it, `DELETE /:id` answers 200 and removes that row and no other: afterwards
`GET /:id` answers 404, the `total` of the list is one less, the table is the old one
without the rows of that id, the others as they were and in their order, and no row with
that id, marked or not, remains. -/
theorem delete_removes_row (id : Nat) (db : Db) (hex : ∃ r ∈ db.brands, r.id = id)
    (hu : UniqueBrandIds db) :
    (deleteBrand id db).1 = ⟨200, .message "Бренд успешно удален"⟩ ∧
    getBrand id (deleteBrand id db).2
      = (⟨404, .error "Бренд не найден"⟩, (deleteBrand id db).2) ∧
    (∃ n : Nat, totalOf (getBrands ⟨none, none, none⟩ db).1 = some (n + 1) ∧
      totalOf (getBrands ⟨none, none, none⟩ (deleteBrand id db).2).1 = some n) ∧
    (deleteBrand id db).2.brands.Sublist db.brands ∧
    (∀ r ∈ db.brands, r.id ≠ id → r ∈ (deleteBrand id db).2.brands) ∧
    (∀ r ∈ (deleteBrand id db).2.brands, r ∈ db.brands ∧ r.id ≠ id) ∧
    (deleteBrand id db).2.users = db.users := by
  obtain ⟨r0, hf, _, _⟩ := find?_id_some hex
  have hd : deleteBrand id db
      = (⟨200, .message "Бренд успешно удален"⟩,
         { db with brands := db.brands.filter (fun r => !decide (r.id = id)) }) := by
    simp [deleteBrand, hf]
  have hmem : ∀ r, r ∈ db.brands.filter (fun r => !decide (r.id = id))
      ↔ r ∈ db.brands ∧ r.id ≠ id := by
    intro r
    simp [List.mem_filter]
  rw [hd]
  refine ⟨rfl, ?_, ⟨(db.brands.filter (fun r => !decide (r.id = id))).length, ?_, ?_⟩,
    List.filter_sublist _, ?_, ?_, rfl⟩
  · have hnone : (db.brands.filter (fun r => !decide (r.id = id))).find?
        (fun r => decide (r.id = id)) = none :=
      find?_id_none (fun r hr => ((hmem r).1 hr).2)
    simp [getBrand, hnone]
  · rw [getBrands_default_total, filter_id_length hu hex]
  · rw [getBrands_default_total]
  · intro r hr hne
    exact (hmem r).2 ⟨hr, hne⟩
  · intro r hr
    exact (hmem r).1 hr

/-- Witness of C18: deleting the seeded brand 2. -/
theorem delete_removes_row_witness :
    ((∃ r ∈ refDb.brands, r.id = 2) ∧ UniqueBrandIds refDb) ∧
    (deleteBrand 2 refDb).1 = ⟨200, .message "Бренд успешно удален"⟩ ∧
    getBrand 2 (deleteBrand 2 refDb).2
      = (⟨404, .error "Бренд не найден"⟩, (deleteBrand 2 refDb).2) ∧
    (∃ n : Nat, totalOf (getBrands ⟨none, none, none⟩ refDb).1 = some (n + 1) ∧
      totalOf (getBrands ⟨none, none, none⟩ (deleteBrand 2 refDb).2).1 = some n) ∧
    (deleteBrand 2 refDb).2.brands.Sublist refDb.brands ∧
    (∀ r ∈ refDb.brands, r.id ≠ 2 → r ∈ (deleteBrand 2 refDb).2.brands) ∧
    (∀ r ∈ (deleteBrand 2 refDb).2.brands, r ∈ refDb.brands ∧ r.id ≠ 2) ∧
    (deleteBrand 2 refDb).2.users = refDb.users :=
  ⟨⟨by decide, by unfold UniqueBrandIds; decide⟩,
   delete_removes_row 2 refDb (by decide) (by unfold UniqueBrandIds; decide)⟩

/-! ## Invariants of the brands table -/

theorem seeded_brand_names (E : Env) (salt : String) (now : Nat) :
    (initializeDatabase E salt now emptyDb).brands.map (fun r => r.name)
      = ["Apple", "Nike", "Coca-Cola"] := by
  simp [initializeDatabase, insertUser, insertBrand, testBrands, emptyDb, nextRowid]

theorem createBrand_effect (E : Env) (maxYear : Int) (now : Nat) (body : BrandBody) (db : Db) :
    (createBrand E maxYear now body db).2 = db ∨
    ∃ row : BrandRow, row.name ≠ "" ∧ (∀ r ∈ db.brands, r.id < row.id) ∧
      (createBrand E maxYear now body db).2
        = { db with brands := db.brands ++ [row], brandsSeq := row.id } := by
  by_cases hv : brandValidators E maxYear body = []
  · right
    obtain ⟨name, hn, hne⟩ := brandValidators_nil_name hv
    rw [createBrand_valid E maxYear now body db name hn hv]
    exact ⟨_, hne,
      fun r hr => lt_nextRowid (List.mem_map_of_mem (fun r : BrandRow => r.id) hr), rfl⟩
  · left
    simp [createBrand, hv]

theorem updateBrand_effect (E : Env) (maxYear : Int) (now : Nat) (id : Nat)
    (idNumber : Option Int) (body : BrandBody) (db : Db) :
    (updateBrand E maxYear now id idNumber body db).2 = db ∨
    ∃ name : String, name ≠ "" ∧
      (updateBrand E maxYear now id idNumber body db).2
        = { db with brands := (updateRows id name body.description body.logo_url body.website
              (yearValue body.founded_year) body.country body.industry now db.brands) } := by
  by_cases hv : brandValidators E maxYear body = []
  · cases hf : db.brands.find? (fun r => decide (r.id = id)) with
    | none =>
      left
      simp [updateBrand, hv, hf]
    | some r =>
      right
      obtain ⟨name, hn, hne⟩ := brandValidators_nil_name hv
      have hex : ∃ r ∈ db.brands, r.id = id :=
        ⟨r, List.mem_of_find?_eq_some hf, by simpa using List.find?_some hf⟩
      rw [updateBrand_valid E maxYear now id idNumber body db name hn hv hex]
      exact ⟨name, hne, rfl⟩
  · left
    simp [updateBrand, hv]

theorem deleteBrand_effect (id : Nat) (db : Db) :
    (deleteBrand id db).2 = db ∨
    (deleteBrand id db).2
      = { db with brands := db.brands.filter (fun r => !decide (r.id = id)) } := by
  cases hf : db.brands.find? (fun r => decide (r.id = id)) with
  | none =>
    left
    simp [deleteBrand, hf]
  | some r =>
    right
    simp [deleteBrand, hf]

/-- The primary key holds: ids are unique in the seeded table and stay unique under every
create, update and delete request. -/
theorem uniqueBrandIds_preserved (E : Env) (salt : String) (maxYear : Int) (now : Nat)
    (id : Nat) (idNumber : Option Int) (body : BrandBody) (db : Db) (h : UniqueBrandIds db) :
    UniqueBrandIds (initializeDatabase E salt now emptyDb) ∧
    UniqueBrandIds (createBrand E maxYear now body db).2 ∧
    UniqueBrandIds (updateBrand E maxYear now id idNumber body db).2 ∧
    UniqueBrandIds (deleteBrand id db).2 := by
  refine ⟨?_, ?_, ?_, ?_⟩
  · simp [UniqueBrandIds, initializeDatabase, insertUser, insertBrand, testBrands, emptyDb,
      nextRowid]
  · rcases createBrand_effect E maxYear now body db with he | ⟨row, _, hlt, he⟩
    · rw [he]; exact h
    · rw [he]
      unfold UniqueBrandIds at h ⊢
      simp only [List.map_append, List.map_cons, List.map_nil]
      rw [List.nodup_append]
      refine ⟨h, List.nodup_singleton _, ?_⟩
      intro a ha hb
      rw [List.mem_singleton] at hb
      obtain ⟨r, hr, rfl⟩ := List.mem_map.1 ha
      have := hlt r hr
      omega
  · rcases updateBrand_effect E maxYear now id idNumber body db with he | ⟨name, _, he⟩
    · rw [he]; exact h
    · rw [he]
      unfold UniqueBrandIds at h ⊢
      have hids : (updateRows id name body.description body.logo_url body.website
          (yearValue body.founded_year) body.country body.industry now db.brands).map
            (fun r => r.id) = db.brands.map (fun r => r.id) := by
        simp only [updateRows, List.map_map]
        apply List.map_congr_left
        intro r _
        simp only [Function.comp]
        split_ifs <;> rfl
      rw [hids]
      exact h
  · rcases deleteBrand_effect id db with he | he
    · rw [he]; exact h
    · rw [he]
      unfold UniqueBrandIds at h ⊢
      exact h.sublist ((List.filter_sublist _).map _)

/-- Under requests whose body fields are strings (or absent), every row of the brands table
keeps a non-empty name: this holds in the seeded table and, from any database where it
holds, after every create, update and delete request, whatever the id and the body. -/
theorem nonEmptyNames_invariant (E : Env) (salt : String) (maxYear : Int) (now : Nat)
    (id : Nat) (idNumber : Option Int) (body : BrandBody) (db : Db) (h : NonEmptyNames db) :
    NonEmptyNames (initializeDatabase E salt now emptyDb) ∧
    NonEmptyNames (createBrand E maxYear now body db).2 ∧
    NonEmptyNames (updateBrand E maxYear now id idNumber body db).2 ∧
    NonEmptyNames (deleteBrand id db).2 := by
  refine ⟨?_, ?_, ?_, ?_⟩
  · intro r hr
    have hm : r.name ∈ (initializeDatabase E salt now emptyDb).brands.map (fun r => r.name) :=
      List.mem_map_of_mem (fun r : BrandRow => r.name) hr
    rw [seeded_brand_names] at hm
    intro he
    rw [he] at hm
    revert hm
    decide
  · rcases createBrand_effect E maxYear now body db with he | ⟨row, hne, _, he⟩
    · rw [he]; exact h
    · rw [he]
      intro r hr
      rcases List.mem_append.1 hr with hr | hr
      · exact h r hr
      · rw [List.mem_singleton] at hr
        rw [hr]; exact hne
  · rcases updateBrand_effect E maxYear now id idNumber body db with he | ⟨name, hne, he⟩
    · rw [he]; exact h
    · rw [he]
      intro r hr
      simp only [updateRows, List.mem_map] at hr
      obtain ⟨r0, hr0, rfl⟩ := hr
      split_ifs
      · exact hne
      · exact h r0 hr0
  · rcases deleteBrand_effect id db with he | he
    · rw [he]; exact h
    · rw [he]
      intro r hr
      exact h r (List.mem_of_mem_filter hr)

/-- The seeded table, with string-bodied requests that try to store an empty name. -/
theorem nonEmptyNames_invariant_witness :
    NonEmptyNames refDb ∧
    NonEmptyNames (initializeDatabase refEnv "pepper" 9 emptyDb) ∧
    NonEmptyNames (createBrand refEnv 2026 9 (nameOnly "") refDb).2 ∧
    NonEmptyNames (updateBrand refEnv 2026 9 1 (some 1) (nameOnly "") refDb).2 ∧
    NonEmptyNames (deleteBrand 1 refDb).2 :=
  ⟨by unfold NonEmptyNames; decide,
   nonEmptyNames_invariant refEnv "pepper" 2026 9 1 (some 1) (nameOnly "") refDb
     (by unfold NonEmptyNames; decide)⟩

/-! ## Tokens and the clock -/

/-- Under the laws of `jsonwebtoken`, tokens signed at different seconds differ. -/
theorem jwtSign_clock_injective (E : Env) (hJ : JwtLaws E) (p : TokenPayload) (secret : String)
    (ttl : Nat) (httl : 0 < ttl) (t t' : Nat)
    (h : E.jwtSign p secret ttl t = E.jwtSign p secret ttl t') : t = t' := by
  have h1 := hJ.verify_sign p secret ttl t (min t t')
  have h2 := hJ.verify_sign p secret ttl t' (min t t')
  rw [h] at h1
  rw [h1] at h2
  have c1 : min t t' < t + ttl := by omega
  have c2 : min t t' < t' + ttl := by omega
  simp only [c1, c2, if_true] at h2
  injection h2 with h3
  injection h3

/-- Counterexample to C20 as stated: two calls of `generateToken` for the same user, with
the same secret, one second apart, return different tokens. -/
theorem generateToken_differs_across_seconds :
    generateToken refEnv 100 1 "admin" "admin@example.com"
      ≠ generateToken refEnv 101 1 "admin" "admin@example.com" := by
  intro h
  have := jwtSign_clock_injective refEnv refEnv_jwtLaws ⟨1, "admin", "admin@example.com"⟩
    (JWT_SECRET refEnv) expiresIn24h (by decide) 100 101 h
  omega

/-- C20, amended. `generateToken` is a function of the user record, the signing secret and
the clock second of the call (the `iat` that `jwt.sign` stamps), and of nothing else: two
calls for the same user with the same secret return the same token exactly when they are
made in the same second. -/
theorem generateToken_same_iff_same_second (E : Env) (hJ : JwtLaws E) (id : Nat)
    (username email : String) (t t' : Nat) :
    generateToken E t id username email = generateToken E t' id username email ↔ t = t' := by
  constructor
  · intro h
    exact jwtSign_clock_injective E hJ ⟨id, username, email⟩ (JWT_SECRET E) expiresIn24h
      (by decide) t t' h
  · intro h
    rw [h]

/-- Witness of C20 amended: the reference environment, seconds 100 and 101. -/
theorem generateToken_same_iff_same_second_witness :
    JwtLaws refEnv ∧
    (generateToken refEnv 100 1 "admin" "admin@example.com"
        = generateToken refEnv 101 1 "admin" "admin@example.com" ↔ (100 : Nat) = 101) :=
  ⟨refEnv_jwtLaws,
   generateToken_same_iff_same_second refEnv refEnv_jwtLaws 1 "admin" "admin@example.com"
     100 101⟩

/-! ## The login lookup selects at most one account -/

theorem usernames_of_reachable (E : Env) {db : Db} (h : ReachableUsers E db) :
    ∀ r ∈ db.users, matchesUsername r.username = true := by
  induction h with
  | seeded salt now =>
    rw [seeded_users]
    intro r hr
    rw [List.mem_singleton] at hr
    subst hr
    show matchesUsername "admin" = true
    decide
  | @register salt now body db _ ih =>
    rcases register_effect E salt now body db with he | ⟨u, e, p, hb, hv, _, he⟩
    · rw [he]; exact ih
    · rw [he]
      intro r hr
      simp only [List.mem_append, List.mem_singleton] at hr
      rcases hr with hr | hr
      · exact ih r hr
      · subst hr
        rw [hb, registerValidators_eq_nil] at hv
        exact hv.2.1

theorem loginMatches_conflict {x : String} {a b : UserRow}
    (ha : '@' ∉ a.username.data ∧ '@' ∈ a.email.data)
    (hb : '@' ∉ b.username.data ∧ '@' ∈ b.email.data)
    (hne : a.username ≠ b.username ∧ a.email ≠ b.email)
    (hma : loginMatches x a = true) (hmb : loginMatches x b = true) : False := by
  simp only [loginMatches, Bool.or_eq_true, decide_eq_true_eq] at hma hmb
  rcases hma with h1 | h1 <;> rcases hmb with h2 | h2
  · exact hne.1 (h1.trans h2.symm)
  · exact ha.1 (by rw [h1, ← h2]; exact hb.2)
  · exact hb.1 (by rw [h2, ← h1]; exact ha.2)
  · exact hne.2 (h1.trans h2.symm)

theorem loginMatches_unique {l : List UserRow}
    (hwf : ∀ r ∈ l, '@' ∉ r.username.data ∧ '@' ∈ r.email.data)
    (hpw : l.Pairwise (fun a b => a.username ≠ b.username ∧ a.email ≠ b.email)) (x : String) :
    (l.filter (loginMatches x)).length ≤ 1 ∧
    ∀ r₁ ∈ l, ∀ r₂ ∈ l, loginMatches x r₁ = true → loginMatches x r₂ = true → r₁ = r₂ := by
  induction l with
  | nil => simp
  | cons a t ih =>
    rw [List.pairwise_cons] at hpw
    have hwa := hwf a (List.mem_cons_self _ _)
    have hwt : ∀ r ∈ t, '@' ∉ r.username.data ∧ '@' ∈ r.email.data :=
      fun r hr => hwf r (List.mem_cons_of_mem _ hr)
    obtain ⟨ihlen, ihuniq⟩ := ih hwt hpw.2
    constructor
    · by_cases hma : loginMatches x a = true
      · have hnil : t.filter (loginMatches x) = [] := by
          rw [List.filter_eq_nil_iff]
          intro r hr hmr
          exact loginMatches_conflict hwa (hwt r hr) (hpw.1 r hr) hma hmr
        simp [List.filter_cons, hma, hnil]
      · simp only [List.filter_cons, hma]
        exact ihlen
    · intro r₁ h₁ r₂ h₂ hm₁ hm₂
      rcases List.mem_cons.1 h₁ with e₁ | e₁ <;> rcases List.mem_cons.1 h₂ with e₂ | e₂
      · rw [e₁, e₂]
      · subst e₁
        exact (loginMatches_conflict hwa (hwt r₂ e₂) (hpw.1 r₂ e₂) hm₁ hm₂).elim
      · subst e₂
        exact (loginMatches_conflict hwa (hwt r₁ e₁) (hpw.1 r₁ e₁) hm₂ hm₁).elim
      · exact ihuniq r₁ e₁ r₂ e₂ hm₁ hm₂

/-- In every users table reached from the seeded one by register requests whose fields are
strings, every username consists of letters, digits and underscores only and every email
contains `@`, so no username equals an email of the table; hence for every login username
input `x` at most one row satisfies the lookup `username = x OR email = x`: any two rows
that satisfy it are the same row, and the row `login` takes is the only one. -/
theorem login_lookup_unique (E : Env) (hE : EmailLaws E) (db : Db) (hr : ReachableUsers E db)
    (x : String) :
    (∀ r ∈ db.users, r.username.data ≠ [] ∧ (∀ c ∈ r.username.data, isWordChar c = true) ∧
      '@' ∈ r.email.data) ∧
    (∀ r₁ ∈ db.users, ∀ r₂ ∈ db.users, r₁.username ≠ r₂.email) ∧
    (db.users.filter (loginMatches x)).length ≤ 1 ∧
    (∀ r₁ ∈ db.users, ∀ r₂ ∈ db.users,
      loginMatches x r₁ = true → loginMatches x r₂ = true → r₁ = r₂) ∧
    (∀ r, selectUser x x db.users = some r → db.users.filter (loginMatches x) = [r]) := by
  have hwf := usersWF_of_reachable E hE hr
  have hum := usernames_of_reachable E hr
  have hat : ∀ r ∈ db.users, '@' ∉ r.username.data ∧ '@' ∈ r.email.data :=
    fun r h => (hwf.1 r h).2
  obtain ⟨hlen, huniq⟩ := loginMatches_unique hat hwf.2 x
  refine ⟨?_, ?_, hlen, huniq, ?_⟩
  · intro r h
    have hm := hum r h
    simp only [matchesUsername, Bool.and_eq_true, Bool.not_eq_true', List.all_eq_true,
      List.isEmpty_eq_false] at hm
    exact ⟨hm.1, hm.2, (hat r h).2⟩
  · intro r₁ h₁ r₂ h₂ e
    exact (hat r₁ h₁).1 (by rw [e]; exact (hat r₂ h₂).2)
  · intro r hf
    obtain ⟨hr, hm⟩ := selectUser_some hf
    have hmem : r ∈ db.users.filter (loginMatches x) :=
      List.mem_filter.2 ⟨hr, by simpa [loginMatches] using hm⟩
    cases hl : db.users.filter (loginMatches x) with
    | nil => rw [hl] at hmem; cases hmem
    | cons a t =>
      rw [hl] at hmem hlen
      cases t with
      | nil =>
        rw [List.mem_singleton] at hmem
        rw [hmem]
      | cons b t' =>
        simp at hlen

/-- The seeded table after the registration of the test suite, looked up by
`admin@example.com`. -/
theorem login_lookup_unique_witness :
    (EmailLaws refEnv ∧
      ReachableUsers refEnv (register refEnv "pepper" 9
        ⟨some "testuser", some "test@example.com", some "password123"⟩ refDb).2) ∧
    ((register refEnv "pepper" 9
        ⟨some "testuser", some "test@example.com", some "password123"⟩ refDb).2.users.filter
          (loginMatches "admin@example.com")).length ≤ 1 :=
  ⟨⟨refEnv_emailLaws, ReachableUsers.register "pepper" 9 _ (ReachableUsers.seeded "salt" 0)⟩,
   (login_lookup_unique refEnv refEnv_emailLaws _
     (ReachableUsers.register "pepper" 9
       ⟨some "testuser", some "test@example.com", some "password123"⟩
       (ReachableUsers.seeded "salt" 0)) "admin@example.com").2.2.1⟩

/-! ## The brand dialog and the URL validators -/

theorem refEnv_urlLaws : UrlLaws refEnv where
  empty := by decide

theorem handleSubmit_url_errors (E : Env) (hE : UrlLaws E) (maxYear : Int) (f : BrandForm) :
    (f.logo_url = "" →
      (⟨"logo_url", "URL логотипа должен быть валидным"⟩ : FieldError)
        ∈ brandValidators E maxYear (handleSubmit f)) ∧
    (f.website = "" →
      (⟨"website", "URL сайта должен быть валидным"⟩ : FieldError)
        ∈ brandValidators E maxYear (handleSubmit f)) := by
  constructor
  · intro h
    simp [brandValidators, handleSubmit, optionalCheck, h, hE.empty]
  · intro h
    simp [brandValidators, handleSubmit, optionalCheck, h, hE.empty]

theorem withoutUrls_valid_iff (E : Env) (maxYear : Int) (f : BrandForm) :
    brandValidators E maxYear (withoutUrls (handleSubmit f)) = [] ↔
      (f.name ≠ "" ∧ validatorLength f.name ≤ 100 ∧ validatorLength f.description ≤ 500 ∧
        validatorLength f.country ≤ 50 ∧ validatorLength f.industry ≤ 50 ∧
        (f.founded_year = "" ∨
          ∃ n : Int, parseInt (some f.founded_year) = some n ∧ 1800 ≤ n ∧ n ≤ maxYear)) := by
  by_cases hy : f.founded_year = ""
  · simp [brandValidators, withoutUrls, handleSubmit, optionalCheck, fieldString, notEmpty,
      isLength, hy]
  · cases hp : parseInt (some f.founded_year) with
    | none =>
      simp [brandValidators, withoutUrls, handleSubmit, optionalCheck, fieldString, notEmpty,
        isLength, hy, hp, isIntInRange]
    | some n =>
      simp [brandValidators, withoutUrls, handleSubmit, optionalCheck, fieldString, notEmpty,
        isLength, hy, hp, isIntInRange]
      intro _ _ _
      tauto

/-- Counterexample to C22 as stated: a form state with both URL fields left empty, the name
`Acme` and the year 1500. The body built by `handleSubmit`, with the keys `logo_url` and
`website` omitted, has a non-empty name of at most 100 characters and is still answered 400
by create and by update, for its year. -/
theorem form_without_urls_rejected_for_year :
    ((⟨"Acme", "", "", "", "1500", "", ""⟩ : BrandForm).logo_url = "" ∧
      (⟨"Acme", "", "", "", "1500", "", ""⟩ : BrandForm).name ≠ "" ∧
      validatorLength (⟨"Acme", "", "", "", "1500", "", ""⟩ : BrandForm).name ≤ 100) ∧
    createBrand refEnv 2026 7 (withoutUrls (handleSubmit ⟨"Acme", "", "", "", "1500", "", ""⟩))
        refDb
      = (⟨400, .validation
            [⟨"founded_year", "Год основания должен быть между 1800 и текущим годом"⟩]⟩,
         refDb) ∧
    updateBrand refEnv 2026 7 1 (some 1) (withoutUrls (handleSubmit ⟨"Acme", "", "", "", "1500", "", ""⟩))
        refDb
      = (⟨400, .validation
            [⟨"founded_year", "Год основания должен быть между 1800 и текущим годом"⟩]⟩,
         refDb) := by
  decide

/-- C22, amended. The optional URL fields are optional only when absent, not when empty:
for every form state of `BrandDialog` in which `logo_url` or `website` is the empty string,
the body built by `handleSubmit` is answered 400 by create and by update, with the error of
that URL field among the details, and the database is returned as it was. The same body with
the two keys omitted passes the validators exactly when the name is non-empty and at most
100 characters, the description at most 500, country and industry at most 50 each
(characters as `validator.isLength` counts them: code points, the variation selectors
U+FE0E and U+FE0F left out), and the year field is empty or `parseInt` reads from it a
number in [1800, maxYear]; create then answers 201 and appends one row, and update of an
existing id answers 200. -/
theorem empty_url_fields_rejected (E : Env) (hE : UrlLaws E) (maxYear : Int) (now : Nat)
    (id : Nat) (idNumber : Option Int) (f : BrandForm) (db : Db)
    (hempty : f.logo_url = "" ∨ f.website = "") :
    (createBrand E maxYear now (handleSubmit f) db
        = (⟨400, .validation (brandValidators E maxYear (handleSubmit f))⟩, db) ∧
      updateBrand E maxYear now id idNumber (handleSubmit f) db
        = (⟨400, .validation (brandValidators E maxYear (handleSubmit f))⟩, db)) ∧
    ((f.logo_url = "" →
        (⟨"logo_url", "URL логотипа должен быть валидным"⟩ : FieldError)
          ∈ brandValidators E maxYear (handleSubmit f)) ∧
      (f.website = "" →
        (⟨"website", "URL сайта должен быть валидным"⟩ : FieldError)
          ∈ brandValidators E maxYear (handleSubmit f))) ∧
    (brandValidators E maxYear (withoutUrls (handleSubmit f)) = [] ↔
      (f.name ≠ "" ∧ validatorLength f.name ≤ 100 ∧ validatorLength f.description ≤ 500 ∧
        validatorLength f.country ≤ 50 ∧ validatorLength f.industry ≤ 50 ∧
        (f.founded_year = "" ∨
          ∃ n : Int, parseInt (some f.founded_year) = some n ∧ 1800 ≤ n ∧ n ≤ maxYear))) ∧
    (brandValidators E maxYear (withoutUrls (handleSubmit f)) = [] →
      (createBrand E maxYear now (withoutUrls (handleSubmit f)) db).1.status = 201 ∧
      (createBrand E maxYear now (withoutUrls (handleSubmit f)) db).2.brands.length
        = db.brands.length + 1 ∧
      ((∃ r ∈ db.brands, r.id = id) →
        (updateBrand E maxYear now id idNumber (withoutUrls (handleSubmit f)) db).1.status = 200)) := by
  have herr := handleSubmit_url_errors E hE maxYear f
  have hne : brandValidators E maxYear (handleSubmit f) ≠ [] := by
    intro hnil
    rcases hempty with h | h
    · have := herr.1 h
      rw [hnil] at this
      cases this
    · have := herr.2 h
      rw [hnil] at this
      cases this
  refine ⟨⟨?_, ?_⟩, herr, withoutUrls_valid_iff E maxYear f, ?_⟩
  · simp [createBrand, hne]
  · simp [updateBrand, hne]
  · intro hv
    have hn : (withoutUrls (handleSubmit f)).name = some f.name := rfl
    refine ⟨?_, ?_, ?_⟩
    · rw [createBrand_valid E maxYear now _ db f.name hn hv]
    · rw [createBrand_valid E maxYear now _ db f.name hn hv]
      simp
    · intro hex
      rw [updateBrand_valid E maxYear now id idNumber _ db f.name hn hv hex]

/-- Witness of C22 amended: the form of a new brand with only the name filled in. -/
theorem empty_url_fields_rejected_witness :
    (UrlLaws refEnv ∧ ((⟨"Acme", "", "", "", "", "", ""⟩ : BrandForm).logo_url = "" ∨
      (⟨"Acme", "", "", "", "", "", ""⟩ : BrandForm).website = "")) ∧
    (createBrand refEnv 2026 7 (handleSubmit ⟨"Acme", "", "", "", "", "", ""⟩) refDb
        = (⟨400, .validation
              (brandValidators refEnv 2026 (handleSubmit ⟨"Acme", "", "", "", "", "", ""⟩))⟩,
           refDb) ∧
      updateBrand refEnv 2026 7 1 (some 1) (handleSubmit ⟨"Acme", "", "", "", "", "", ""⟩) refDb
        = (⟨400, .validation
              (brandValidators refEnv 2026 (handleSubmit ⟨"Acme", "", "", "", "", "", ""⟩))⟩,
           refDb)) ∧
    (createBrand refEnv 2026 7 (withoutUrls (handleSubmit ⟨"Acme", "", "", "", "", "", ""⟩))
        refDb).1.status = 201 := by
  have h := empty_url_fields_rejected refEnv refEnv_urlLaws 2026 7 1 (some 1)
    ⟨"Acme", "", "", "", "", "", ""⟩ refDb (Or.inl rfl)
  exact ⟨⟨refEnv_urlLaws, Or.inl rfl⟩, h.1, (h.2.2.2 (by decide)).1⟩

/-! ## Requests with arrays and numbers -/

/-- On a body of strings `registerJson` is `register`. -/
theorem registerJson_one (E : Env) (salt : String) (now : Nat) (u e p : String) (db : Db) :
    registerJson E salt now ⟨.one u, .one e, p⟩ db
      = ((register E salt now ⟨some u, some e, some p⟩ db).1.status,
         (register E salt now ⟨some u, some e, some p⟩ db).2) := by
  by_cases hv : registerValidators E ⟨some u, some e, some p⟩ = []
  · have hv' := (registerValidators_eq_nil E _).1 hv
    simp only [fieldString, Option.getD_some] at hv'
    have hj : registerJsonValid E ⟨.one u, .one e, p⟩ = true := by
      simp [registerJsonValid, TextField.items, hv'.1, hv'.2.1, hv'.2.2.1, hv'.2.2.2]
    cases hf : db.users.find? (fun r => decide (r.username = u) || decide (r.email = e)) with
    | some r => simp [registerJson, register, hj, hv, hf, TextField.items]
    | none =>
      have hfree := find?_user_none.1 hf
      simp [registerJson, register, hj, hv, hf, TextField.items, insertUser,
        any_user_false hfree]
  · have hj : registerJsonValid E ⟨.one u, .one e, p⟩ = false := by
      rw [Bool.eq_false_iff]
      intro h
      apply hv
      rw [registerValidators_eq_nil]
      simpa [registerJsonValid, TextField.items, fieldString, and_assoc] using h
    simp [registerJson, register, hj, hv]

/-- Uniqueness of usernames and of emails also survives a registration with array-valued
fields: the row is inserted only after the lookup found neither of the two values. -/
theorem uniqueUsers_registerJson (E : Env) (salt : String) (now : Nat) (body : RegisterJson)
    {db : Db} (h : UniqueUsers db) : UniqueUsers (registerJson E salt now body db).2 := by
  unfold registerJson
  split
  · exact h
  · split
    · rename_i u e _
      cases hf : db.users.find? (fun r => decide (r.username = u) || decide (r.email = e)) with
      | some r => exact h
      | none =>
        have hfree := find?_user_none.1 hf
        simp only [insertUser, any_user_false hfree]
        exact uniqueUsers_append h hfree
    · exact h

/-- On a body of strings `loginJson` is `login`. -/
theorem loginJson_one (E : Env) (now : Nat) (x p : String) (db : Db) :
    loginJson E now ⟨.one x, .text p⟩ db = login E now ⟨some x, some p⟩ db := by
  simp [loginJson, login, loginValidators, TextField.items, fieldString]

/-- On a body of strings `createBrandJson` is `createBrand`. -/
theorem createBrandJson_one (E : Env) (maxYear : Int) (now : Nat) (name : String)
    (description logo_url website : Option String) (founded_year : Option YearInput)
    (country industry : Option String) (db : Db) :
    createBrandJson E maxYear now
        ⟨.one name, description.map .one, logo_url, website, founded_year, country, industry⟩ db
      = ((createBrand E maxYear now
            ⟨some name, description, logo_url, website, founded_year, country, industry⟩ db).1.status,
         (createBrand E maxYear now
            ⟨some name, description, logo_url, website, founded_year, country, industry⟩ db).2) := by
  have hiff : brandJsonValid E maxYear
        ⟨.one name, description.map .one, logo_url, website, founded_year, country, industry⟩
          = true ↔
      brandValidators E maxYear
        ⟨some name, description, logo_url, website, founded_year, country, industry⟩ = [] := by
    cases description <;> cases logo_url <;> cases website <;> cases founded_year <;>
      cases country <;> cases industry <;>
      simp [brandJsonValid, brandValidators, optionalOk, optionalCheck, TextField.items,
        fieldString, and_assoc]
  by_cases hv : brandValidators E maxYear
      ⟨some name, description, logo_url, website, founded_year, country, industry⟩ = []
  · have hj := hiff.2 hv
    cases description <;>
      simp [createBrandJson, createBrand, hj, hv, nameAndDescription, TextField.items,
        insertBrand] <;>
      simp_all
  · have hj : brandJsonValid E maxYear
        ⟨.one name, description.map .one, logo_url, website, founded_year, country, industry⟩
          = false := by
      rw [Bool.eq_false_iff]
      exact fun h => hv (hiff.1 h)
    simp [createBrandJson, createBrand, hj, hv]

/-- `parseInt` returns doubles: the numeral 9007199254740993 is read as 9007199254740992,
and the list reports that page; the numeral 9223372036854775807 is read as 2^63, and as a
page with page size 1 it gives an offset that SQLite refuses. -/
theorem getBrands_page_is_a_double :
    parseInt (some "9007199254740993") = some 9007199254740992 ∧
    (getBrands ⟨some "9007199254740993", some "1", none⟩ refDb).1
      = ⟨200, .brandList [] 3 9007199254740992 3 false true⟩ ∧
    parseInt (some "9223372036854775807") = some 9223372036854775808 ∧
    (getBrands ⟨some "9223372036854775807", some "1", none⟩ refDb).1
      = ⟨500, .error "Ошибка получения данных"⟩ := by
  decide

/-- `LIKE` reads its operands up to the first U+0000: the search `e`, U+0000, `zzz` is the
pattern `%e`, which selects the names that end in `e`. -/
theorem search_cut_at_nul :
    (brandsOf (getBrands ⟨none, none, some (String.mk ['e', Char.ofNat 0, 'z', 'z', 'z'])⟩
        refDb).1).map (fun r => r.name) = ["Apple", "Nike"] := by
  decide

/-- `validator.isLength` does not count a variation selector: the password `12345` followed
by U+FE0F has five characters for it, and the registration is answered 400. -/
theorem register_password_with_variation_selector :
    (String.mk ['1', '2', '3', '4', '5', Char.ofNat 0xFE0F]).length = 6 ∧
    validatorLength (String.mk ['1', '2', '3', '4', '5', Char.ofNat 0xFE0F]) = 5 ∧
    (register refEnv "pepper" 9
        ⟨some "testuser", some "test@example.com",
          some (String.mk ['1', '2', '3', '4', '5', Char.ofNat 0xFE0F])⟩ refDb).1.status = 400 := by
  decide

/-- C3, the code at the failing input. With the number 12345 as password, a login for the
existing account `admin` is answered 500 (`bcrypt.compare` throws on a number, after the
row was found), and the same login for the unknown name `nobody` is answered 401: the
response tells whether the account exists. -/
theorem login_numeric_password_reveals_account :
    loginJson refEnv 5 ⟨.one "admin", .number 12345⟩ refDb
      = (⟨500, .error "Внутренняя ошибка сервера"⟩, refDb) ∧
    loginJson refEnv 5 ⟨.one "nobody", .number 12345⟩ refDb
      = (⟨401, .error "Неверные учетные данные"⟩, refDb) ∧
    (∃ r ∈ refDb.users, r.username = "admin") ∧
    (∀ r ∈ refDb.users, r.username ≠ "nobody" ∧ r.email ≠ "nobody") := by
  decide

/-- C8, the code at the failing input. A register body whose username is the empty array,
which is no string of 3 to 30 word characters, is not answered 400: no validator runs on
it; with an email of two addresses the two statements get their two parameters from the
email, and the request is answered 201 and stores a row; with one address they get one
parameter and the request is answered 500. A login body whose username is the empty array
is answered 500. -/
theorem register_array_username_not_rejected :
    registerJson refEnv "pepper" 9 arrayRegistration refDb
      = (201, { refDb with
          users := refDb.users ++
            [⟨2, "admin@example.com", "evil@x.yz", "password123$pepper", 9, 9⟩],
          usersSeq := 2 }) ∧
    registerJson refEnv "pepper" 9 ⟨.many [], .one "new@example.com", "password123"⟩ refDb
      = (500, refDb) ∧
    loginJson refEnv 9 ⟨.many [], .text "admin123"⟩ refDb
      = (⟨500, .error "Внутренняя ошибка сервера"⟩, refDb) := by
  decide

/-- C4, the code at the failing input. After the registration with username `[]` and email
`['admin@example.com', 'evil@x.yz']` the table holds a row whose username is the email of
`admin`. The seeded `admin`, whose stored hash matches `admin123`, then logs in by username
but no longer by email: the lookup for `admin@example.com` returns the new row, whose hash
does not match, and the login is answered 401. -/
theorem login_by_email_fails_after_array_registration :
    (⟨1, "admin", "admin@example.com", "admin123$salt", 0, 0⟩ : UserRow)
      ∈ (registerJson refEnv "pepper" 9 arrayRegistration refDb).2.users ∧
    refEnv.bcryptCompare "admin123" "admin123$salt" = true ∧
    (login refEnv 10 ⟨some "admin", some "admin123"⟩
        (registerJson refEnv "pepper" 9 arrayRegistration refDb).2).1.status = 200 ∧
    login refEnv 10 ⟨some "admin@example.com", some "admin123"⟩
        (registerJson refEnv "pepper" 9 arrayRegistration refDb).2
      = (⟨401, .error "Неверные учетные данные"⟩,
         (registerJson refEnv "pepper" 9 arrayRegistration refDb).2) := by
  decide

/-- C19, the code at the failing input. `POST /` with the name `[]` and the description
`['', 'd']` passes `notEmpty` (no element of the name is validated), the two elements of the
description are bound to the columns `name` and `description`, and the request is answered
201 and stores a row whose name is the empty string. -/
theorem createBrand_array_name_stores_empty_name :
    createBrandJson refEnv 2026 7 ⟨.many [], some (.many ["", "d"]), none, none, none, none, none⟩
        refDb
      = (201, { refDb with
          brands := refDb.brands ++ [⟨4, "", some "d", none, none, none, none, none, 7, 7⟩],
          brandsSeq := 4 }) ∧
    NonEmptyNames refDb ∧
    ¬ NonEmptyNames (createBrandJson refEnv 2026 7
        ⟨.many [], some (.many ["", "d"]), none, none, none, none, none⟩ refDb).2 := by
  unfold NonEmptyNames
  decide

/-- C21, the code at the failing input. After the registration with username `[]` and email
`['admin@example.com', 'evil@x.yz']`, which no validator stops, two rows satisfy the lookup
`username = x OR email = x` for `x = admin@example.com`: the seeded `admin` by its email and
the new row by its username. -/
theorem lookup_matches_two_rows_after_array_registration :
    (registerJson refEnv "pepper" 9 arrayRegistration refDb).1 = 201 ∧
    (registerJson refEnv "pepper" 9 arrayRegistration refDb).2.users.filter
        (loginMatches "admin@example.com")
      = [⟨1, "admin", "admin@example.com", "admin123$salt", 0, 0⟩,
         ⟨2, "admin@example.com", "evil@x.yz", "password123$pepper", 9, 9⟩] := by
  decide

end Crud
